import Mathlib

/-!
Verification of the Resonance repository (synthetic social-network campaign
simulator) against its natural-language specification.

The Python sources are shallowly embedded below.  Conventions:
  * machine floats become exact rationals (ℚ); Python's `round(x, 3)` is
    modelled as rounding to the nearest multiple of 1/1000;
  * the opaque LLM decision generator becomes an oracle function that is
    universally quantified in every theorem, so the theorems cover every
    possible generator behaviour;
  * the global `random` stream becomes an explicit stream `rand : ℕ → ℚ`
    (one value per `random.random()` call, consumed in program order) and an
    explicit sampled list for `random.sample`;
  * Python's `list(set(...))` has an unspecified iteration order; it is
    modelled by `List.dedup`.  Every theorem proved about such a value is
    order-independent.
-/

namespace Resonance

/-- Campaign goal tag (src/models.py and src/resonance/models.py, class Goal). -/
inductive Goal where
  | engagement
  | brand_awareness
  | clicks
  | controversy
deriving DecidableEq, Repr

/-- Mood tag (class Mood in both model files). -/
inductive Mood where
  | happy
  | neutral
  | irritable
  | bored
  | excited
  | anxious
  | cynical
deriving DecidableEq, Repr

/-- Interaction action tag (class ActionType in both model files). -/
inductive ActionType where
  | ignore
  | like
  | comment
  | share
  | quote_share
  | mock
deriving DecidableEq, Repr

/-- Campaign seed (class CampaignSeed in both model files). -/
structure CampaignSeed where
  content : String
  image_description : String
  goal : Goal
  target_audience : String
deriving DecidableEq, Repr

/-- Agent record (class AgentProfile, identical fields in both model files).
The mbti / political / purchasing codes only feed the LLM prompt strings, so
they are kept as opaque strings here; ids, interests, influence, mood and the
two adjacency lists are the fields the simulator and graph builder read. -/
structure AgentProfile where
  id : String
  name : String
  age : Nat
  location : String
  bio : String
  mbti : String
  political_leaning : String
  purchasing_power : String
  interests : List String
  influence_score : ℚ
  mood : Mood
  followers : List String
  following : List String
deriving DecidableEq, Repr

/-- Interaction event.  Carries the fields shared by the two source variants
(src/models.py class Interaction and src/resonance/models.py class
Interaction) that the simulator and analytics read: author id, action,
content and tick.  Diagnostic-only fields (reasoning, random event id,
in_reply_to, new_mood copy) are omitted; no claim mentions them. -/
structure Interaction where
  agent_id : String
  action : ActionType
  content : String
  tick : Nat
deriving DecidableEq, Repr

end Resonance

namespace Models

/-! Embedding of src/models.py (the local, no-API variant). -/

open Resonance

/-- SimulationResult (src/models.py, class SimulationResult). -/
structure SimulationResult where
  seed : CampaignSeed
  generation : Nat
  interactions : List Interaction
deriving DecidableEq, Repr

/-- Property total_reach: count of non-ignore interactions
(src/models.py lines 96-98). -/
def total_reach (r : SimulationResult) : Nat :=
  (r.interactions.filter (fun i => i.action ≠ ActionType.ignore)).length

/-- Property likes (src/models.py lines 100-102). -/
def likes (r : SimulationResult) : Nat :=
  (r.interactions.filter (fun i => i.action = ActionType.like)).length

/-- Property comments (src/models.py lines 104-106). -/
def comments (r : SimulationResult) : Nat :=
  (r.interactions.filter (fun i => i.action = ActionType.comment)).length

/-- Property shares: share + quote_share (src/models.py lines 108-110). -/
def shares (r : SimulationResult) : Nat :=
  (r.interactions.filter
    (fun i => i.action = ActionType.share ∨ i.action = ActionType.quote_share)).length

/-- Property mocks (src/models.py lines 112-114). -/
def mocks (r : SimulationResult) : Nat :=
  (r.interactions.filter (fun i => i.action = ActionType.mock)).length

/-- Per-action sentiment weight table used by sentiment_score
(src/models.py lines 117-119). -/
def sentimentWeight : ActionType → ℚ
  | ActionType.like => 3/10
  | ActionType.comment => 2/10
  | ActionType.share => 5/10
  | ActionType.quote_share => 3/10
  | ActionType.mock => -(6/10)
  | ActionType.ignore => 0

/-- Property sentiment_score: mean per-action weight clamped to [-1, 1],
0 for an empty ledger (src/models.py lines 116-123). -/
def sentiment_score (r : SimulationResult) : ℚ :=
  if r.interactions = [] then 0
  else
    let total := (r.interactions.map (fun i => sentimentWeight i.action)).sum
    max (-1) (min 1 (total / r.interactions.length))

/-- Property virality_score: (share + quote_share + comment) / total
interactions, capped at 1, 0 for an empty ledger
(src/models.py lines 125-130). -/
def virality_score (r : SimulationResult) : ℚ :=
  if r.interactions = [] then 0
  else
    let viral := (r.interactions.filter (fun i =>
      i.action = ActionType.share ∨ i.action = ActionType.quote_share ∨
        i.action = ActionType.comment)).length
    min 1 ((viral : ℚ) / r.interactions.length)

end Models

namespace Evolution

/-! Embedding of src/evolution.py (local fitness evaluation). -/

open Resonance Models

/-- Local binding `engagement` inside compute_fitness:
total_reach / len(interactions) (src/evolution.py line 13). -/
def engagement_term (r : SimulationResult) : ℚ :=
  (total_reach r : ℚ) / r.interactions.length

/-- Local binding `sentiment` inside compute_fitness:
(sentiment_score + 1) / 2 (src/evolution.py line 14). -/
def sentiment_term (r : SimulationResult) : ℚ :=
  (sentiment_score r + 1) / 2

/-- Local binding `mock_rate` inside compute_fitness:
mocks / len(interactions) (src/evolution.py line 16). -/
def mock_rate (r : SimulationResult) : ℚ :=
  (mocks r : ℚ) / r.interactions.length

/-- compute_fitness (src/evolution.py lines 8-27).  Returns 0 for an empty
ledger, otherwise a goal-dependent weighted sum of the normalized terms.
The Python `return 0.5` fallback is unreachable: Goal is a closed enum and
every member is matched. -/
def compute_fitness (r : SimulationResult) : ℚ :=
  if r.interactions.length = 0 then 0
  else
    let engagement := engagement_term r
    let sentiment := sentiment_term r
    let virality := virality_score r
    let mockRate := mock_rate r
    match r.seed.goal with
    | Goal.engagement =>
        4/10 * engagement + 3/10 * sentiment + 2/10 * virality + 1/10 * (1 - mockRate)
    | Goal.brand_awareness =>
        3/10 * engagement + 2/10 * sentiment + 4/10 * virality + 1/10 * (1 - mockRate)
    | Goal.clicks =>
        5/10 * engagement + 2/10 * sentiment + 2/10 * virality + 1/10 * (1 - mockRate)
    | Goal.controversy =>
        2/10 * engagement + 1/10 * sentiment + 3/10 * virality + 4/10 * mockRate

end Evolution

namespace RModels

/-! Embedding of src/resonance/models.py (the API / pydantic variant). -/

open Resonance

/-- Analytics block computed by SimulationResult.compute_analytics.  The
Python method mutates fields of the result object in place; here the same
computation is expressed as a pure record of the fields it writes. -/
structure Analytics where
  likes : Nat
  comments : Nat
  shares : Nat
  mocks : Nat
  total_reach : Nat
  sentiment_score : ℚ
  virality_score : ℚ
deriving DecidableEq, Repr

/-- Rounding to three decimal places, modelling Python round(x, 3) at exact
rational inputs.  Python rounds the nearest double half-to-even; the two
agree except on exact .0005 ties, and no theorem below depends on a tie. -/
def round3 (q : ℚ) : ℚ := (round (q * 1000) : ℚ) / 1000

/-- compute_analytics (src/resonance/models.py lines 136-148).  Note that
`comments` counts COMMENT and MOCK together (the discourse-volume variant),
`total_reach` is the sum likes + comments + shares, and the sentiment /
virality fields keep their 0.0 defaults when the non-ignore count is zero. -/
def compute_analytics (interactions : List Interaction) : Analytics :=
  let likes := (interactions.filter (fun i => i.action = ActionType.like)).length
  let comments := (interactions.filter (fun i =>
    i.action = ActionType.comment ∨ i.action = ActionType.mock)).length
  let shares := (interactions.filter (fun i =>
    i.action = ActionType.share ∨ i.action = ActionType.quote_share)).length
  let mocks := (interactions.filter (fun i => i.action = ActionType.mock)).length
  let total_reach := likes + comments + shares
  let total := (interactions.filter (fun i => i.action ≠ ActionType.ignore)).length
  if 0 < total then
    { likes := likes, comments := comments, shares := shares, mocks := mocks,
      total_reach := total_reach,
      sentiment_score := round3 (((likes : ℚ) + shares - mocks) / total),
      virality_score := round3 ((shares : ℚ) / total) }
  else
    { likes := likes, comments := comments, shares := shares, mocks := mocks,
      total_reach := total_reach, sentiment_score := 0, virality_score := 0 }

/-- SimulationResult (src/resonance/models.py, class SimulationResult) with
its stored analytics fields.  compute_fitness reads the stored fields. -/
structure SimulationResult where
  generation : Nat
  seed : CampaignSeed
  interactions : List Interaction
  total_reach : Nat := 0
  likes : Nat := 0
  comments : Nat := 0
  shares : Nat := 0
  mocks : Nat := 0
  sentiment_score : ℚ := 0
  virality_score : ℚ := 0
deriving DecidableEq, Repr

end RModels

namespace REvolution

/-! Embedding of src/resonance/evolution.py (API variant fitness). -/

open Resonance

/-- Clamped linear normalization _norm (src/resonance/evolution.py
lines 163-165). -/
def norm (value min_val max_val : ℚ) : ℚ :=
  max 0 (min 1 ((value - min_val) / (max_val - min_val)))

/-- compute_fitness (src/resonance/evolution.py lines 131-160).  The Python
`return 0.0` fallback is unreachable: Goal is a closed enum and every member
is matched. -/
def compute_fitness (r : RModels.SimulationResult) : ℚ :=
  match r.seed.goal with
  | Goal.brand_awareness =>
      6/10 * norm r.total_reach 0 100 + 4/10 * norm r.sentiment_score (-1) 1
  | Goal.clicks =>
      7/10 * norm r.shares 0 50 + 3/10 * norm r.total_reach 0 100
  | Goal.controversy =>
      5/10 * norm ((r.comments : ℚ) + r.mocks) 0 80 + 5/10 * norm r.total_reach 0 100
  | Goal.engagement =>
      3/10 * norm r.total_reach 0 100 + 3/10 * norm r.comments 0 50
        + 2/10 * norm r.shares 0 50 + 2/10 * norm r.sentiment_score (-1) 1

end REvolution

namespace REngine

/-! Embedding of the generation loop of run_resonance
(src/resonance/engine.py lines 57-119).

The per-generation simulation (agent LLM calls, evolving seed, mutated agent
moods) is abstracted into an oracle `sim : generation index → result`; the
theorems below quantify over every oracle, hence over every behaviour of the
simulator and of analyze_and_evolve.  The loop body appends the result, then
breaks when compute_fitness reaches the threshold, otherwise continues up to
the cap. -/

open Resonance

/-- One unrolling per remaining generation: run_gens sim t fuel gen plays
generations gen, gen+1, ... while fuel lasts, stopping early (after
appending) once fitness reaches the threshold t.  This is the for-loop
`for gen in range(1, max_generations + 1)` with its break, where
fuel = max_generations - gen + 1. -/
def run_gens (sim : Nat → RModels.SimulationResult) (t : ℚ) :
    Nat → Nat → List RModels.SimulationResult
  | 0, _ => []
  | fuel + 1, gen =>
      let r := sim gen
      if t ≤ REvolution.compute_fitness r then [r]
      else r :: run_gens sim t fuel (gen + 1)

/-- The generation loop of run_resonance: all_results after the loop. -/
def run_resonance (sim : Nat → RModels.SimulationResult) (fitness_threshold : ℚ)
    (max_generations : Nat) : List RModels.SimulationResult :=
  run_gens sim fitness_threshold max_generations 1

end REngine

namespace SocialGraph

/-! Embedding of src/social_graph.py (class SocialGraph).

The Python class holds the agent list (whose follower / following lists it
mutates) and a list self.edges of materialized (follower_id, followee_id)
pairs.  `random.random()` draws are modelled by an explicit stream
rand : ℕ → ℚ consumed one value per considered ordered pair, in loop order;
rebuilding "with the same random seed" means rebuilding with the same
stream, restarted from position 0 (Python reseeding restarts the global
generator). -/

open Resonance

/-- Graph state: the agents (owning the adjacency lists) and the
materialized edge list self.edges.  The constructor starts with edges = []. -/
structure Graph where
  agents : List AgentProfile
  edges : List (String × String)
deriving DecidableEq, Repr

/-- Mutable build state while the double loop runs: the agent list being
mutated, the edge list being appended to, and the position in the random
stream. -/
structure BuildState where
  agents : List AgentProfile
  edges : List (String × String)
  c : Nat
deriving Repr

/-- Replace the element at index n by f applied to it (out-of-range is a
no-op).  Used to model in-place mutation of one agent in the list. -/
def modifyAt (l : List AgentProfile) (n : Nat) (f : AgentProfile → AgentProfile) :
    List AgentProfile :=
  match l, n with
  | [], _ => []
  | x :: xs, 0 => f x :: xs
  | x :: xs, n + 1 => x :: modifyAt xs n f

/-- The two appends performed on edge success (src/social_graph.py lines
27-28): b's id onto a's following, a's id onto b's followers, where a and b
sit at indices i and j. -/
def addFollow (agents : List AgentProfile) (i j : Nat) (aid bid : String) :
    List AgentProfile :=
  let step1 := modifyAt agents i (fun a => { a with following := a.following ++ [bid] })
  modifyAt step1 j (fun b => { b with followers := b.followers ++ [aid] })

/-- Number of distinct shared interests: len(set(a.interests) &
set(b.interests)) (src/social_graph.py line 24). -/
def sharedInterests (a b : AgentProfile) : Nat :=
  ((a.interests.filter (fun t => t ∈ b.interests)).dedup).length

/-- Body of the inner pair loop (src/social_graph.py lines 20-29) for the
ordered index pair (i, j): skip identical ids (no draw consumed), otherwise
draw once and materialize the edge when the draw is below
min(0.05 + influence(b)*0.3 + shared*0.15, 0.7). -/
def buildStep (rand : Nat → ℚ) (st : BuildState) (i j : Nat) : BuildState :=
  match st.agents[i]?, st.agents[j]? with
  | some a, some b =>
      if a.id = b.id then st
      else
        let prob := 5/100 + b.influence_score * 3/10 + (sharedInterests a b : ℚ) * 15/100
        if rand st.c < min prob (7/10) then
          { agents := addFollow st.agents i j a.id b.id,
            edges := st.edges ++ [(a.id, b.id)],
            c := st.c + 1 }
        else
          { st with c := st.c + 1 }
  | _, _ => st

/-- All ordered index pairs (i, j) in the order the double loop visits them. -/
def pairOrder (n : Nat) : List (Nat × Nat) :=
  (List.range n).flatMap (fun i => (List.range n).map (fun j => (i, j)))

/-- build (src/social_graph.py lines 14-29).  First clears every agent's
adjacency lists, then runs the double loop over ordered pairs.  Faithfully
to the source, self.edges is NOT cleared: new edges are appended to whatever
the list already holds. -/
def build (rand : Nat → ℚ) (g : Graph) : Graph :=
  let cleared := g.agents.map (fun a => { a with followers := [], following := [] })
  let st := (pairOrder cleared.length).foldl
    (fun st p => buildStep rand st p.1 p.2) ⟨cleared, g.edges, 0⟩
  { agents := st.agents, edges := st.edges }

/-- Constructor SocialGraph(agents): edges start empty
(src/social_graph.py lines 9-12). -/
def mk_graph (agents : List AgentProfile) : Graph :=
  { agents := agents, edges := [] }

end SocialGraph

namespace SocialGraph

/-- The C10 consistency property, stated from the claim: for distinct
agents, following / follower membership and edge membership coincide, and
no agent follows or is followed by itself. -/
def consistent (g : Graph) : Prop :=
  (∀ a ∈ g.agents, ∀ b ∈ g.agents, a.id ≠ b.id →
    ((b.id ∈ a.following ↔ (a.id, b.id) ∈ g.edges)
      ∧ (a.id ∈ b.followers ↔ (a.id, b.id) ∈ g.edges)))
  ∧ ∀ a ∈ g.agents, a.id ∉ a.following ∧ a.id ∉ a.followers

/-- Loop invariant for the pair fold inside build: agent ids are unchanged,
every agent's adjacency lists are exactly the projections of the edge list
filtered on that agent's id, and no edge is a self-loop. -/
def BuildInv (ids0 : List String) (st : BuildState) : Prop :=
  st.agents.map (fun a => a.id) = ids0
  ∧ (∀ (k : Nat) (x : Resonance.AgentProfile), st.agents[k]? = some x →
      x.following = (st.edges.filter (fun e => e.1 = x.id)).map (fun e => e.2)
        ∧ x.followers = (st.edges.filter (fun e => e.2 = x.id)).map (fun e => e.1))
  ∧ ∀ e ∈ st.edges, e.1 ≠ e.2

end SocialGraph

namespace RSimulation

/-! Embedding of run_simulation (src/resonance/simulation.py lines 138-220).

External pieces are abstracted as oracles, so every theorem below holds for
every behaviour of the external collaborators:
  * `policy : AgentProfile → List Interaction → ActionType × String × Mood`
    stands for _build_agent_context followed by _run_agent_turn_sync; the
    context string the Python builds is a deterministic function of exactly
    the agent, the campaign seed and the visible interaction list, so
    quantifying over all functions of (agent, visible list) covers the real
    composite for any fixed seed;
  * `rand : ℕ → ℚ` is the global random.random() stream, consumed one value
    per 30 percent algorithmic-surfacing test, in program order;
  * `sample : List AgentProfile` is the value of
    random.sample(agents, k = min(len(agents) // 3, len(agents))).

Python's agents_map dict lookups become first-match searches on the agent
list (identical when ids are unique, which the simulator assumes), and
list(set(...)) becomes List.dedup as explained at the top of the file. -/

open Resonance

/-- Decision oracle shape: agent and visible interactions to
(action, content, new mood). -/
def Policy : Type :=
  AgentProfile → List Interaction → ActionType × String × Mood

/-- Stable insertion step for descending sort by a Nat key: x is placed
before the first element whose key does not exceed x's key. -/
def insertDesc (key : AgentProfile → Nat) (x : AgentProfile) :
    List AgentProfile → List AgentProfile
  | [] => [x]
  | y :: ys => if key y ≤ key x then x :: y :: ys else y :: insertDesc key x ys

/-- Stable descending sort by a Nat key.  Python's
sorted(agents, key=..., reverse=True) is a stable descending sort; a stable
sort of a list under a fixed total preorder is unique, so this insertion
sort produces exactly the Python ordering. -/
def sortDesc (key : AgentProfile → Nat) (l : List AgentProfile) :
    List AgentProfile :=
  l.foldr (insertDesc key) []

/-- influencers: top five agents by follower count
(src/resonance/simulation.py line 160). -/
def influencers (agents : List AgentProfile) : List AgentProfile :=
  (sortDesc (fun a => a.followers.length) agents).take 5

/-- initial_viewers: deduplicated ids of influencers plus the random sample
(src/resonance/simulation.py lines 161-162). -/
def initial_viewers (agents sample : List AgentProfile) : List String :=
  ((influencers agents ++ sample).map (fun a => a.id)).dedup

/-- agents_map[aid].followers.  The none branch models Python's KeyError
path as an empty list; the simulator only looks up ids of agents that were
previously processed, which always resolve. -/
def followersOf (agents : List AgentProfile) (aid : String) : List String :=
  match agents.find? (fun a => a.id = aid) with
  | some a => a.followers
  | none => []

/-- Share / quote_share relay pass (src/resonance/simulation.py lines
169-175): for each such interaction in ledger order, every follower of the
actor not yet exposed is appended. -/
def shareViewers (agents : List AgentProfile) (saw : List String) :
    List Interaction → List String
  | [] => []
  | ix :: rest =>
      (if ix.action = ActionType.share ∨ ix.action = ActionType.quote_share then
        (followersOf agents ix.agent_id).filter (fun f => f ∉ saw)
      else []) ++ shareViewers agents saw rest

/-- Inner follower loop of the comment / mock relay pass
(src/resonance/simulation.py lines 180-183): one random draw is consumed per
not-yet-exposed follower, who is appended when the draw is below 0.3. -/
def coinFilter (rand : Nat → ℚ) (saw : List String) :
    List String → Nat → List String × Nat
  | [], c => ([], c)
  | f :: fs, c =>
      if f ∈ saw then coinFilter rand saw fs c
      else
        let rest := coinFilter rand saw fs (c + 1)
        (if rand c < 3/10 then f :: rest.1 else rest.1, rest.2)

/-- Comment / mock relay pass (src/resonance/simulation.py lines 176-183),
threading the random stream position through the ledger in order. -/
def commentViewers (rand : Nat → ℚ) (agents : List AgentProfile)
    (saw : List String) : List Interaction → Nat → List String × Nat
  | [], c => ([], c)
  | ix :: rest, c =>
      if ix.action = ActionType.comment ∨ ix.action = ActionType.mock then
        let here := coinFilter rand saw (followersOf agents ix.agent_id) c
        let there := commentViewers rand agents saw rest here.2
        (here.1 ++ there.1, there.2)
      else commentViewers rand agents saw rest c

/-- Interactions visible to an agent: authored by someone it follows or by a
top-five influencer (src/resonance/simulation.py lines 193-196). -/
def visibleTo (agent : AgentProfile) (inflIds : List String)
    (ledger : List Interaction) : List Interaction :=
  ledger.filter (fun ix => ix.agent_id ∈ agent.following ∨ ix.agent_id ∈ inflIds)

/-- Mutable simulation state: the agent list (moods are updated in place),
the append-only ledger, the exposed-id set agents_who_saw_post (as a list),
and the random stream position. -/
structure SimState where
  agents : List AgentProfile
  ledger : List Interaction
  saw : List String
  c : Nat

/-- Set-insert for the exposed-id set: set.add is a no-op on members. -/
def insertId (saw : List String) (aid : String) : List String :=
  if aid ∈ saw then saw else saw ++ [aid]

/-- In-place mood write agent.mood = new_mood, by id. -/
def updateMood (agents : List AgentProfile) (aid : String) (m : Mood) :
    List AgentProfile :=
  agents.map (fun a => if a.id = aid then { a with mood := m } else a)

/-- Body of the per-viewer loop (src/resonance/simulation.py lines 187-212):
resolve the agent, mark it exposed, compute its visible interactions, invoke
the decision policy, write the new mood and append exactly one interaction.
The none branch is Python's KeyError path (unreachable in the runs the
theorems describe); it leaves the state unchanged. -/
def processViewer (policy : Policy) (inflIds : List String) (tick : Nat)
    (st : SimState) (aid : String) : SimState :=
  match st.agents.find? (fun a => a.id = aid) with
  | none => st
  | some agent =>
      let saw := insertId st.saw aid
      let visible := visibleTo agent inflIds st.ledger
      let dec := policy agent visible
      { agents := updateMood st.agents aid dec.2.2,
        ledger := st.ledger ++ [⟨aid, dec.1, dec.2.1, tick⟩],
        saw := saw,
        c := st.c }

/-- One tick (src/resonance/simulation.py lines 164-212): compute the
viewer id list (the seeded list at tick 0, the deduplicated relay lists
afterwards) and fold the per-viewer loop over it. -/
def runTick (policy : Policy) (rand : Nat → ℚ) (inflIds : List String)
    (initialViewers : List String) (st : SimState) (tick : Nat) : SimState :=
  let vc : List String × Nat :=
    if tick = 0 then (initialViewers, st.c)
    else
      let sv := shareViewers st.agents st.saw st.ledger
      let cv := commentViewers rand st.agents st.saw st.ledger st.c
      ((sv ++ cv.1).dedup, cv.2)
  vc.1.foldl (processViewer policy inflIds tick) { st with c := vc.2 }

/-- run_simulation (src/resonance/simulation.py lines 138-220): the tick
loop, starting from the given agents, an empty ledger and an empty exposed
set.  The returned state holds the finished generation's ledger. -/
def run_simulation (policy : Policy) (rand : Nat → ℚ)
    (agents sample : List AgentProfile) (num_ticks : Nat) : SimState :=
  let inflIds := (influencers agents).map (fun a => a.id)
  let iv := initial_viewers agents sample
  (List.range num_ticks).foldl (runTick policy rand inflIds iv)
    { agents := agents, ledger := [], saw := [], c := 0 }

end RSimulation

namespace RSimulation

/-- Loop invariant of the tick loop: ledger authors are pairwise distinct
and every ledger author has been marked in agents_who_saw_post. -/
def SimInv (st : SimState) : Prop :=
  (st.ledger.map (fun i => i.agent_id)).Nodup
  ∧ ∀ aid ∈ st.ledger.map (fun i => i.agent_id), aid ∈ st.saw

end RSimulation

namespace RParse

/-! Embedding of the decision-parsing tail of _run_agent_turn_sync
(src/resonance/simulation.py lines 250-263).

The LLM call and the markdown-fence stripping produce some raw text; what
the claim is about is the step from json.loads onward, so the embedding
takes the json.loads outcome directly: none models a JSONDecodeError,
some j a successfully decoded JSON document j.  Python exceptions that the
function does not catch are modelled as a raised outcome; the Python caller
(the tick loop) has no handler, so a raised outcome aborts the tick. -/

open Resonance

/-- Decoded JSON documents. -/
inductive Json where
  | null : Json
  | bool (b : Bool) : Json
  | num (q : ℚ) : Json
  | str (s : String) : Json
  | arr (elems : List Json) : Json
  | obj (fields : List (String × Json)) : Json

/-- Outcome of running a Python fragment: a returned value or an uncaught
exception, named by its class. -/
inductive PyOutcome (α : Type) where
  | ok (value : α) : PyOutcome α
  | raised (exn : String) : PyOutcome α

/-- dict.get(key, default) on a decoded JSON object. -/
def dictGet (fields : List (String × Json)) (key : String) (dflt : Json) : Json :=
  match fields.find? (fun kv => kv.1 = key) with
  | some kv => kv.2
  | none => dflt

/-- The ActionType(value) enum constructor: succeeds exactly on the six
member strings, otherwise Python raises ValueError. -/
def actionFromStr : String → Option ActionType
  | "ignore" => some ActionType.ignore
  | "like" => some ActionType.like
  | "comment" => some ActionType.comment
  | "share" => some ActionType.share
  | "quote_share" => some ActionType.quote_share
  | "mock" => some ActionType.mock
  | _ => none

/-- The Mood(value) enum constructor: succeeds exactly on the seven member
strings, otherwise Python raises ValueError. -/
def moodFromStr : String → Option Mood
  | "happy" => some Mood.happy
  | "neutral" => some Mood.neutral
  | "irritable" => some Mood.irritable
  | "bored" => some Mood.bored
  | "excited" => some Mood.excited
  | "anxious" => some Mood.anxious
  | "cynical" => some Mood.cynical
  | _ => none

/-- The .value string of a Mood member (used as the new_mood default). -/
def moodValue : Mood → String
  | Mood.happy => "happy"
  | Mood.neutral => "neutral"
  | Mood.irritable => "irritable"
  | Mood.bored => "bored"
  | Mood.excited => "excited"
  | Mood.anxious => "anxious"
  | Mood.cynical => "cynical"

/-- ActionType(x) applied to an arbitrary decoded value x: only member
strings succeed. -/
def coerceAction (j : Json) : PyOutcome ActionType :=
  match j with
  | Json.str s =>
      match actionFromStr s with
      | some a => PyOutcome.ok a
      | none => PyOutcome.raised "ValueError"
  | _ => PyOutcome.raised "ValueError"

/-- Mood(x) applied to an arbitrary decoded value x: only member strings
succeed. -/
def coerceMood (j : Json) : PyOutcome Mood :=
  match j with
  | Json.str s =>
      match moodFromStr s with
      | some m => PyOutcome.ok m
      | none => PyOutcome.raised "ValueError"
  | _ => PyOutcome.raised "ValueError"

/-- Lines 254-263 of src/resonance/simulation.py.  A JSONDecodeError (loads
= none) is caught and degrades to (ignore, "", unchanged mood).  Any decoded
document then flows—uncaught—through data.get (AttributeError unless the
document is an object) and the two enum coercions (ValueError on anything
outside the closed vocabularies).  The content field undergoes no coercion
in Python, so it is returned as a raw decoded value here. -/
def parse_agent_turn (mood : Mood) (loads : Option Json) :
    PyOutcome (ActionType × Json × Mood) :=
  match loads with
  | none => PyOutcome.ok (ActionType.ignore, Json.str "", mood)
  | some (Json.obj fields) =>
      match coerceAction (dictGet fields "action" (Json.str "ignore")) with
      | PyOutcome.raised e => PyOutcome.raised e
      | PyOutcome.ok action =>
          let content := dictGet fields "content" (Json.str "")
          match coerceMood (dictGet fields "new_mood" (Json.str (moodValue mood))) with
          | PyOutcome.raised e => PyOutcome.raised e
          | PyOutcome.ok new_mood => PyOutcome.ok (action, content, new_mood)
  | some _ => PyOutcome.raised "AttributeError"

end RParse

namespace Examples

/-! Concrete inputs used by the counterexamples and witnesses below. -/

open Resonance

/-- Agent constructor with the fields irrelevant to the claims defaulted. -/
def mkAgent (aid : String) (influence : ℚ) (interests followers following : List String) :
    AgentProfile :=
  { id := aid, name := aid, age := 30, location := "", bio := "",
    mbti := "INTJ", political_leaning := "center", purchasing_power := "medium",
    interests := interests, influence_score := influence, mood := Mood.neutral,
    followers := followers, following := following }

/-- Interaction constructor with empty content at tick 0. -/
def mkIx (aid : String) (act : ActionType) : Interaction :=
  { agent_id := aid, action := act, content := "", tick := 0 }

/-- A campaign seed with the given goal. -/
def mkSeed (g : Goal) : CampaignSeed :=
  { content := "c", image_description := "", goal := g, target_audience := "t" }

/-- Controversy result with one mock and one ignore: two interactions, reach
one.  Here mocks divided by reach is 1 while mocks divided by the ledger
length is one half, so the two mock-rate readings differ. -/
def exC1 : Models.SimulationResult :=
  { seed := mkSeed Goal.controversy, generation := 1,
    interactions := [mkIx "u1" ActionType.mock, mkIx "u2" ActionType.ignore] }

/-- The spec scenario ledger: ten interactions, six mocks, two shares, two
likes, so reach is ten and every interaction is non-ignore. -/
def scenC1 : Models.SimulationResult :=
  { seed := mkSeed Goal.controversy, generation := 1,
    interactions :=
      [mkIx "u1" ActionType.mock, mkIx "u2" ActionType.mock,
       mkIx "u3" ActionType.mock, mkIx "u4" ActionType.mock,
       mkIx "u5" ActionType.mock, mkIx "u6" ActionType.mock,
       mkIx "u7" ActionType.share, mkIx "u8" ActionType.share,
       mkIx "u9" ActionType.like, mkIx "u10" ActionType.like] }

/-- Engagement result whose ledger is a single ignore: reach is zero but the
ledger is non-empty. -/
def exC2 : Models.SimulationResult :=
  { seed := mkSeed Goal.engagement, generation := 1,
    interactions := [mkIx "u1" ActionType.ignore] }

/-- Ledger with one like and two comments: reach three, so the exact
sentiment value one third is not representable in three decimals. -/
def exC5 : List Interaction :=
  [mkIx "u1" ActionType.like, mkIx "u2" ActionType.comment,
   mkIx "u3" ActionType.comment]

/-- Two agents with no interests and zero influence: every ordered pair has
edge probability 0.05. -/
def gAgents : List AgentProfile :=
  [mkAgent "a" 0 [] [] [], mkAgent "b" 0 [] [] []]

/-- The all-zero random stream: every draw is 0, below every probability
the builder can produce, so every considered edge materializes. -/
def rand0 : Nat → ℚ := fun _ => 0

/-- The constant ignore decision policy. -/
def policy0 : RSimulation.Policy := fun _ _ => (ActionType.ignore, "", Mood.neutral)

/-- A single isolated agent. -/
def soloAgents : List AgentProfile := [mkAgent "a" 0 [] [] []]

/-- First build on the two fresh zero-influence agents with the all-zero
stream: both ordered pairs materialize (probability 0.05 each, draw 0). -/
def gBuild1 : SocialGraph.Graph :=
  SocialGraph.build rand0 (SocialGraph.mk_graph gAgents)

/-- Second build on the same graph object with the stream restarted from
the same seed. -/
def gBuild2 : SocialGraph.Graph := SocialGraph.build rand0 gBuild1

/-- An engagement result with an empty ledger. -/
def exEmpty : Models.SimulationResult :=
  { seed := mkSeed Goal.engagement, generation := 1, interactions := [] }

/-- A resonance-variant simulation result with empty stored analytics,
used to instantiate the evolution-loop theorem. -/
def rresult : RModels.SimulationResult :=
  { generation := 1, seed := mkSeed Goal.engagement, interactions := [] }

/-- A constant per-generation simulation oracle. -/
def simC : Nat → RModels.SimulationResult := fun _ => rresult

end Examples

section Theorems

open Resonance

/-! Helper lemmas shared by several claims. -/

/-- Every non-ignore interaction is counted by exactly one of the three
analytics buckets: like, comment-or-mock, share-or-quote. -/
theorem filter_action_decompose (l : List Interaction) :
    (l.filter (fun i => i.action ≠ ActionType.ignore)).length
      = (l.filter (fun i => i.action = ActionType.like)).length
        + (l.filter (fun i =>
            i.action = ActionType.comment ∨ i.action = ActionType.mock)).length
        + (l.filter (fun i =>
            i.action = ActionType.share ∨ i.action = ActionType.quote_share)).length := by
  induction l with
  | nil => rfl
  | cons i rest ih =>
      obtain ⟨aid, act, cont, tk⟩ := i
      cases act <;> simp [List.filter_cons] at ih ⊢ <;> omega

/-- The mock count never exceeds the comment-or-mock count. -/
theorem filter_mock_le (l : List Interaction) :
    (l.filter (fun i => i.action = ActionType.mock)).length
      ≤ (l.filter (fun i =>
          i.action = ActionType.comment ∨ i.action = ActionType.mock)).length := by
  induction l with
  | nil => exact Nat.le_refl 0
  | cons i rest ih =>
      obtain ⟨aid, act, cont, tk⟩ := i
      cases act <;> simp [List.filter_cons] at ih ⊢ <;> omega

/-- Field values of compute_analytics: likes. -/
theorem analytics_likes (l : List Interaction) :
    (RModels.compute_analytics l).likes
      = (l.filter (fun i => i.action = ActionType.like)).length := by
  simp only [RModels.compute_analytics]
  split <;> rfl

/-- Field values of compute_analytics: comments (comment and mock). -/
theorem analytics_comments (l : List Interaction) :
    (RModels.compute_analytics l).comments
      = (l.filter (fun i =>
          i.action = ActionType.comment ∨ i.action = ActionType.mock)).length := by
  simp only [RModels.compute_analytics]
  split <;> rfl

/-- Field values of compute_analytics: shares (share and quote_share). -/
theorem analytics_shares (l : List Interaction) :
    (RModels.compute_analytics l).shares
      = (l.filter (fun i =>
          i.action = ActionType.share ∨ i.action = ActionType.quote_share)).length := by
  simp only [RModels.compute_analytics]
  split <;> rfl

/-- Field values of compute_analytics: mocks. -/
theorem analytics_mocks (l : List Interaction) :
    (RModels.compute_analytics l).mocks
      = (l.filter (fun i => i.action = ActionType.mock)).length := by
  simp only [RModels.compute_analytics]
  split <;> rfl

/-- Field values of compute_analytics: total_reach is the sum of the three
buckets. -/
theorem analytics_total_reach (l : List Interaction) :
    (RModels.compute_analytics l).total_reach
      = (l.filter (fun i => i.action = ActionType.like)).length
        + (l.filter (fun i =>
            i.action = ActionType.comment ∨ i.action = ActionType.mock)).length
        + (l.filter (fun i =>
            i.action = ActionType.share ∨ i.action = ActionType.quote_share)).length := by
  simp only [RModels.compute_analytics]
  split <;> rfl

/-- Sentiment field in the positive-reach branch. -/
theorem analytics_sentiment_pos (l : List Interaction)
    (h : 0 < (l.filter (fun i => i.action ≠ ActionType.ignore)).length) :
    (RModels.compute_analytics l).sentiment_score
      = RModels.round3
          ((((l.filter (fun i => i.action = ActionType.like)).length : ℚ)
            + ((l.filter (fun i =>
                i.action = ActionType.share ∨ i.action = ActionType.quote_share)).length : ℚ)
            - ((l.filter (fun i => i.action = ActionType.mock)).length : ℚ))
            / ((l.filter (fun i => i.action ≠ ActionType.ignore)).length : ℚ)) := by
  simp only [RModels.compute_analytics]
  split
  · rfl
  · next hc => exact absurd h hc

/-- Sentiment field in the zero-reach branch. -/
theorem analytics_sentiment_zero (l : List Interaction)
    (h : (l.filter (fun i => i.action ≠ ActionType.ignore)).length = 0) :
    (RModels.compute_analytics l).sentiment_score = 0 := by
  simp only [RModels.compute_analytics]
  split
  · next hc => exact absurd h (by omega)
  · rfl

/-- Rounding to three decimals preserves an upper bound of one. -/
theorem round3_le_one {q : ℚ} (h : q ≤ 1) : RModels.round3 q ≤ 1 := by
  unfold RModels.round3
  have h2 : round (q * 1000) ≤ round (1000 : ℚ) := by
    rw [round_eq, round_eq]
    exact Int.floor_mono (by linarith)
  have h3 : round (1000 : ℚ) = 1000 := by
    rw [show ((1000 : ℚ)) = ((1000 : ℤ) : ℚ) by norm_num, round_intCast]
  rw [div_le_one (by norm_num)]
  have : (round (q * 1000) : ℚ) ≤ ((1000 : ℤ) : ℚ) := by
    exact_mod_cast h3 ▸ h2
  simpa using this

/-- Rounding to three decimals preserves a lower bound of minus one. -/
theorem neg_one_le_round3 {q : ℚ} (h : -1 ≤ q) : -1 ≤ RModels.round3 q := by
  unfold RModels.round3
  have h2 : round ((-1000 : ℚ)) ≤ round (q * 1000) := by
    rw [round_eq, round_eq]
    exact Int.floor_mono (by linarith)
  have h3 : round ((-1000 : ℚ)) = -1000 := by
    rw [show ((-1000 : ℚ)) = ((-1000 : ℤ) : ℚ) by norm_num, round_intCast]
  rw [le_div_iff₀ (by norm_num : (0 : ℚ) < 1000)]
  have : ((-1000 : ℤ) : ℚ) ≤ (round (q * 1000) : ℚ) := by
    exact_mod_cast h3 ▸ h2
  push_cast at this ⊢
  linarith

end Theorems

section Claims1

open Resonance

/-- The locally computed sentiment score is always clamped into [-1, 1]. -/
theorem sentiment_score_bounds (r : Models.SimulationResult) :
    -1 ≤ Models.sentiment_score r ∧ Models.sentiment_score r ≤ 1 := by
  unfold Models.sentiment_score
  split
  · norm_num
  · exact ⟨le_max_left _ _, max_le (by norm_num) (min_le_left _ _)⟩

/-- The locally computed virality score is always in [0, 1]. -/
theorem virality_score_bounds (r : Models.SimulationResult) :
    0 ≤ Models.virality_score r ∧ Models.virality_score r ≤ 1 := by
  unfold Models.virality_score
  split
  · norm_num
  · refine ⟨le_min (by norm_num) (div_nonneg (by positivity) (by positivity)), ?_⟩
    exact min_le_left _ _

/-- The engagement term is in [0, 1] for a non-empty ledger. -/
theorem engagement_term_bounds (r : Models.SimulationResult)
    (h : r.interactions ≠ []) :
    0 ≤ Evolution.engagement_term r ∧ Evolution.engagement_term r ≤ 1 := by
  have hn : (0 : ℚ) < r.interactions.length := by
    exact_mod_cast List.length_pos.mpr h
  have hle : Models.total_reach r ≤ r.interactions.length := by
    unfold Models.total_reach; exact List.length_filter_le _ _
  unfold Evolution.engagement_term
  constructor
  · exact div_nonneg (by positivity) (le_of_lt hn)
  · rw [div_le_one hn]; exact_mod_cast hle

/-- The mock rate is in [0, 1] for a non-empty ledger. -/
theorem mock_rate_bounds (r : Models.SimulationResult)
    (h : r.interactions ≠ []) :
    0 ≤ Evolution.mock_rate r ∧ Evolution.mock_rate r ≤ 1 := by
  have hn : (0 : ℚ) < r.interactions.length := by
    exact_mod_cast List.length_pos.mpr h
  have hle : Models.mocks r ≤ r.interactions.length := by
    unfold Models.mocks; exact List.length_filter_le _ _
  unfold Evolution.mock_rate
  constructor
  · exact div_nonneg (by positivity) (le_of_lt hn)
  · rw [div_le_one hn]; exact_mod_cast hle

/-- C6: for every ledger the computed reach equals the number of non-ignore
interactions — in the resonance variant as the sum of the per-action buckets
likes + (comments and mocks) + (shares and quote shares), in the local
variant directly as the non-ignore filter count — and therefore reach never
exceeds the total number of interactions. -/
theorem C6_reach_counts_nonignore :
    (∀ ixs : List Interaction,
      (RModels.compute_analytics ixs).total_reach
          = (ixs.filter (fun i => i.action ≠ ActionType.ignore)).length
        ∧ (RModels.compute_analytics ixs).total_reach
            = (RModels.compute_analytics ixs).likes
              + (RModels.compute_analytics ixs).comments
              + (RModels.compute_analytics ixs).shares
        ∧ (RModels.compute_analytics ixs).total_reach ≤ ixs.length)
    ∧ (∀ r : Models.SimulationResult,
        Models.total_reach r
            = (r.interactions.filter (fun i => i.action ≠ ActionType.ignore)).length
          ∧ Models.total_reach r ≤ r.interactions.length) := by
  constructor
  · intro ixs
    have h1 : (RModels.compute_analytics ixs).total_reach
        = (ixs.filter (fun i => i.action ≠ ActionType.ignore)).length := by
      rw [analytics_total_reach, filter_action_decompose]
    refine ⟨h1, ?_, ?_⟩
    · rw [analytics_total_reach, analytics_likes, analytics_comments, analytics_shares]
    · rw [h1]; exact List.length_filter_le _ _
  · intro r
    exact ⟨rfl, List.length_filter_le _ _⟩

/-- C5 counterexample: for a ledger with one like and two comments the
stored sentiment score is the three-decimal rounding 0.333, not the exact
clamped value one third claimed by the specification. -/
theorem C5_sentiment_exact_counterexample :
    (RModels.compute_analytics Examples.exC5).sentiment_score = 333/1000
    ∧ max (-1) (min 1
        ((((Examples.exC5.filter (fun i => i.action = ActionType.like)).length : ℚ)
          + ((Examples.exC5.filter (fun i =>
              i.action = ActionType.share ∨ i.action = ActionType.quote_share)).length : ℚ)
          - ((Examples.exC5.filter (fun i => i.action = ActionType.mock)).length : ℚ))
          / ((Examples.exC5.filter (fun i => i.action ≠ ActionType.ignore)).length : ℚ)))
        = 1/3
    ∧ (333/1000 : ℚ) ≠ 1/3 := by
  have e1 : (Examples.exC5.filter (fun i => i.action = ActionType.like)).length = 1 := by
    decide
  have e2 : (Examples.exC5.filter (fun i =>
      i.action = ActionType.share ∨ i.action = ActionType.quote_share)).length = 0 := by
    decide
  have e3 : (Examples.exC5.filter (fun i => i.action = ActionType.mock)).length = 0 := by
    decide
  have e4 : (Examples.exC5.filter (fun i => i.action ≠ ActionType.ignore)).length = 3 := by
    decide
  have hr3 : RModels.round3 (1/3) = 333/1000 := by
    unfold RModels.round3
    rw [round_eq]
    rw [show ((1 : ℚ)/3 * 1000 + 1/2) = 2003/6 by norm_num]
    rw [show (⌊(2003 : ℚ)/6⌋ : ℤ) = 333 by
      rw [Int.floor_eq_iff]; constructor <;> norm_num]
    norm_num
  refine ⟨?_, ?_, by norm_num⟩
  · rw [analytics_sentiment_pos Examples.exC5 (by rw [e4]; norm_num)]
    rw [e1, e2, e3, e4]
    rw [show ((((1 : ℕ) : ℚ) + ((0 : ℕ) : ℚ) - ((0 : ℕ) : ℚ)) / ((3 : ℕ) : ℚ)) = 1/3 by
      push_cast; norm_num]
    exact hr3
  · rw [e1, e2, e3, e4]
    norm_num

/-- C5 (amended): the stored sentiment is the three-decimal rounding of
(likes + shares - mocks) / reach (shares counting share and quote_share),
is exactly 0 when reach is 0, and always lies in [-1, 1]; no clamping is
needed because the exact ratio already lies in [-1, 1]. -/
theorem C5_sentiment_rounded (ixs : List Interaction) :
    ((ixs.filter (fun i => i.action ≠ ActionType.ignore)).length = 0 →
        (RModels.compute_analytics ixs).sentiment_score = 0)
    ∧ (0 < (ixs.filter (fun i => i.action ≠ ActionType.ignore)).length →
        (RModels.compute_analytics ixs).sentiment_score
          = RModels.round3
              ((((ixs.filter (fun i => i.action = ActionType.like)).length : ℚ)
                + ((ixs.filter (fun i =>
                    i.action = ActionType.share ∨ i.action = ActionType.quote_share)).length : ℚ)
                - ((ixs.filter (fun i => i.action = ActionType.mock)).length : ℚ))
                / ((ixs.filter (fun i => i.action ≠ ActionType.ignore)).length : ℚ)))
    ∧ -1 ≤ (RModels.compute_analytics ixs).sentiment_score
    ∧ (RModels.compute_analytics ixs).sentiment_score ≤ 1 := by
  have hbounds : -1 ≤ (RModels.compute_analytics ixs).sentiment_score
      ∧ (RModels.compute_analytics ixs).sentiment_score ≤ 1 := by
    by_cases h : 0 < (ixs.filter (fun i => i.action ≠ ActionType.ignore)).length
    · rw [analytics_sentiment_pos ixs h]
      have hdec := filter_action_decompose ixs
      have hmk := filter_mock_le ixs
      have htotQ : (0 : ℚ)
          < ((ixs.filter (fun i => i.action ≠ ActionType.ignore)).length : ℚ) := by
        exact_mod_cast h
      have h2 : ((ixs.filter (fun i => i.action ≠ ActionType.ignore)).length : ℚ)
          = ((ixs.filter (fun i => i.action = ActionType.like)).length : ℚ)
            + ((ixs.filter (fun i =>
                i.action = ActionType.comment ∨ i.action = ActionType.mock)).length : ℚ)
            + ((ixs.filter (fun i =>
                i.action = ActionType.share ∨ i.action = ActionType.quote_share)).length : ℚ) := by
        exact_mod_cast hdec
      have h1 : ((ixs.filter (fun i => i.action = ActionType.mock)).length : ℚ)
          ≤ ((ixs.filter (fun i =>
              i.action = ActionType.comment ∨ i.action = ActionType.mock)).length : ℚ) := by
        exact_mod_cast hmk
      constructor
      · apply neg_one_le_round3
        rw [le_div_iff₀ htotQ]
        have h3 : (0 : ℚ)
            ≤ ((ixs.filter (fun i => i.action = ActionType.like)).length : ℚ) := by positivity
        have h4 : (0 : ℚ)
            ≤ ((ixs.filter (fun i =>
                i.action = ActionType.share ∨ i.action = ActionType.quote_share)).length : ℚ) := by
          positivity
        linarith
      · apply round3_le_one
        rw [div_le_one htotQ]
        have h5 : (0 : ℚ)
            ≤ ((ixs.filter (fun i => i.action = ActionType.mock)).length : ℚ) := by positivity
        linarith
    · rw [analytics_sentiment_zero ixs (by omega)]
      norm_num
  exact ⟨analytics_sentiment_zero ixs, analytics_sentiment_pos ixs, hbounds.1, hbounds.2⟩

/-- Witness for C5: a concrete positive-reach ledger instantiating the
rounded-sentiment equation. -/
theorem C5_sentiment_rounded_witness :
    0 < (Examples.exC5.filter (fun i => i.action ≠ ActionType.ignore)).length
    ∧ (RModels.compute_analytics Examples.exC5).sentiment_score
        = RModels.round3
            ((((Examples.exC5.filter (fun i => i.action = ActionType.like)).length : ℚ)
              + ((Examples.exC5.filter (fun i =>
                  i.action = ActionType.share ∨ i.action = ActionType.quote_share)).length : ℚ)
              - ((Examples.exC5.filter (fun i => i.action = ActionType.mock)).length : ℚ))
              / ((Examples.exC5.filter (fun i => i.action ≠ ActionType.ignore)).length : ℚ)) :=
  ⟨by decide, (C5_sentiment_rounded Examples.exC5).2.1 (by decide)⟩

end Claims1

section Claims2

open Resonance

/-- C1 counterexample: for a controversy result with one mock and one
ignore, the computed fitness (which uses mocks / total interactions) is
67/200, while the claimed weighted sum with mockRate = mocks / reach would
be 107/200. -/
theorem C1_mock_rate_counterexample :
    Examples.exC1.seed.goal = Goal.controversy
    ∧ Evolution.compute_fitness Examples.exC1
        ≠ 2/10 * Evolution.engagement_term Examples.exC1
          + 1/10 * Evolution.sentiment_term Examples.exC1
          + 3/10 * Models.virality_score Examples.exC1
          + 4/10 * ((Models.mocks Examples.exC1 : ℚ)
              / (Models.total_reach Examples.exC1 : ℚ)) := by
  refine ⟨rfl, ?_⟩
  simp [Evolution.compute_fitness, Evolution.engagement_term, Evolution.sentiment_term,
    Evolution.mock_rate, Models.sentiment_score, Models.virality_score, Models.total_reach,
    Models.mocks, Models.sentimentWeight, Examples.exC1, Examples.mkIx, Examples.mkSeed]
  try norm_num

/-- C1 (amended): for every controversy result with a non-empty ledger the
fitness equals 0.2 times the reach term (reach / total interactions) plus
0.1 times the sentiment term ((sentiment + 1) / 2) plus 0.3 times the
virality score plus 0.4 times mockRate, where mockRate is mocks divided by
the total number of interactions, not by reach; the two denominators agree
exactly when the ledger has no ignores, as in the spec scenario. -/
theorem C1_controversy_fitness (r : Models.SimulationResult)
    (hg : r.seed.goal = Goal.controversy) (hne : r.interactions ≠ []) :
    Evolution.compute_fitness r
      = 2/10 * ((Models.total_reach r : ℚ) / r.interactions.length)
        + 1/10 * ((Models.sentiment_score r + 1) / 2)
        + 3/10 * Models.virality_score r
        + 4/10 * ((Models.mocks r : ℚ) / r.interactions.length) := by
  have hn : ¬ r.interactions.length = 0 := by
    simpa [List.length_eq_zero] using hne
  simp only [Evolution.compute_fitness, hg, if_neg hn]
  rfl

/-- Witness for C1: the spec scenario (ten interactions, six mocks, two
shares, two likes, reach ten) instantiates the amended formula and yields
the exactly recomputable fitness 27/50 = 0.54. -/
theorem C1_controversy_fitness_witness :
    Examples.scenC1.seed.goal = Goal.controversy
    ∧ Examples.scenC1.interactions ≠ []
    ∧ Evolution.compute_fitness Examples.scenC1 = 27/50 := by
  refine ⟨rfl, by decide, ?_⟩
  rw [C1_controversy_fitness Examples.scenC1 rfl (by decide)]
  simp [Models.total_reach, Models.mocks, Models.sentiment_score, Models.virality_score,
    Models.sentimentWeight, Examples.scenC1, Examples.mkIx]
  norm_num

/-- C2 counterexample: an engagement result whose only interaction is an
ignore has reach zero but fitness 1/4, not zero; only an empty ledger is
sent to zero by the code. -/
theorem C2_zero_reach_counterexample :
    Models.total_reach Examples.exC2 = 0
    ∧ Evolution.compute_fitness Examples.exC2 = 1/4
    ∧ (1/4 : ℚ) ≠ 0 := by
  refine ⟨by decide, ?_, by norm_num⟩
  simp [Evolution.compute_fitness, Evolution.engagement_term, Evolution.sentiment_term,
    Evolution.mock_rate, Models.sentiment_score, Models.virality_score, Models.total_reach,
    Models.mocks, Models.sentimentWeight, Examples.exC2, Examples.mkIx, Examples.mkSeed]
  norm_num

/-- C2 (amended): the fitness is always a scalar in [0, 1], and it is
exactly 0 whenever the ledger is empty (zero interactions); a ledger of
ignores only has reach 0 but positive fitness. -/
theorem C2_fitness_bounds (r : Models.SimulationResult) :
    0 ≤ Evolution.compute_fitness r
    ∧ Evolution.compute_fitness r ≤ 1
    ∧ (r.interactions = [] → Evolution.compute_fitness r = 0) := by
  by_cases hn : r.interactions.length = 0
  · unfold Evolution.compute_fitness
    rw [if_pos hn]
    exact ⟨le_refl 0, by norm_num, fun _ => rfl⟩
  · have hne : r.interactions ≠ [] := by
      intro hcon
      exact hn (by rw [hcon]; rfl)
    have hs := sentiment_score_bounds r
    have hv := virality_score_bounds r
    have he := engagement_term_bounds r hne
    have hm := mock_rate_bounds r hne
    have hsent : 0 ≤ Evolution.sentiment_term r ∧ Evolution.sentiment_term r ≤ 1 := by
      unfold Evolution.sentiment_term
      constructor <;> linarith [hs.1, hs.2]
    have key : 0 ≤ Evolution.compute_fitness r ∧ Evolution.compute_fitness r ≤ 1 := by
      cases hg : r.seed.goal <;>
        simp only [Evolution.compute_fitness, hg, if_neg hn] <;>
        constructor <;>
        linarith [he.1, he.2, hsent.1, hsent.2, hv.1, hv.2, hm.1, hm.2]
    exact ⟨key.1, key.2, fun hcon => absurd (by rw [hcon]; rfl) hn⟩

/-- Witness for C2: the bounds and the empty-ledger zero at a concrete
empty engagement result. -/
theorem C2_fitness_bounds_witness :
    0 ≤ Evolution.compute_fitness Examples.exEmpty
    ∧ Evolution.compute_fitness Examples.exEmpty ≤ 1
    ∧ Evolution.compute_fitness Examples.exEmpty = 0 :=
  ⟨(C2_fitness_bounds Examples.exEmpty).1, (C2_fitness_bounds Examples.exEmpty).2.1,
    (C2_fitness_bounds Examples.exEmpty).2.2 rfl⟩

/-- C8 evidence: a decoded generator output that is well-formed JSON but
carries an action tag outside the closed vocabulary makes the decision step
raise ValueError (caught nowhere, so the tick aborts) instead of degrading
to ignore; a JSON decode failure, in contrast, is caught and degrades to
ignore with the agent's mood unchanged. -/
theorem C8_out_of_vocab_raises :
    RParse.parse_agent_turn Mood.neutral
        (some (RParse.Json.obj [("action", RParse.Json.str "love")]))
      = RParse.PyOutcome.raised "ValueError"
    ∧ RParse.parse_agent_turn Mood.neutral
        (some (RParse.Json.obj [("new_mood", RParse.Json.str "angry")]))
      = RParse.PyOutcome.raised "ValueError"
    ∧ RParse.parse_agent_turn Mood.neutral none
      = RParse.PyOutcome.ok (ActionType.ignore, RParse.Json.str "", Mood.neutral) :=
  ⟨rfl, rfl, rfl⟩

end Claims2

section Claims3

open Resonance

/-- The clamped normalization always lands in [0, 1]. -/
theorem norm_bounds (v lo hi : ℚ) :
    0 ≤ REvolution.norm v lo hi ∧ REvolution.norm v lo hi ≤ 1 := by
  unfold REvolution.norm
  exact ⟨le_max_left _ _, max_le (by norm_num) (min_le_left _ _)⟩

/-- The resonance-variant fitness is always in [0, 1]: every branch is a
convex combination of clamped normalizations. -/
theorem rev_fitness_bounds (r : RModels.SimulationResult) :
    0 ≤ REvolution.compute_fitness r ∧ REvolution.compute_fitness r ≤ 1 := by
  cases hg : r.seed.goal <;>
    simp only [REvolution.compute_fitness, hg] <;>
    constructor <;>
    linarith [norm_bounds (r.total_reach : ℚ) 0 100,
      norm_bounds r.sentiment_score (-1) 1,
      norm_bounds (r.shares : ℚ) 0 50,
      norm_bounds ((r.comments : ℚ) + (r.mocks : ℚ)) 0 80,
      norm_bounds (r.comments : ℚ) 0 50]

/-- The loop never produces more results than it has remaining
generations. -/
theorem run_gens_length_le (sim : Nat → RModels.SimulationResult) (t : ℚ) :
    ∀ fuel gen, (REngine.run_gens sim t fuel gen).length ≤ fuel := by
  intro fuel
  induction fuel with
  | zero => intro gen; simp [REngine.run_gens]
  | succ n ih =>
      intro gen
      simp only [REngine.run_gens]
      split
      · simp
      · simpa using Nat.succ_le_succ (ih (gen + 1))

/-- With at least one remaining generation the loop produces at least one
result (the body appends before testing the threshold). -/
theorem run_gens_length_pos (sim : Nat → RModels.SimulationResult) (t : ℚ) :
    ∀ fuel gen, 1 ≤ fuel → 1 ≤ (REngine.run_gens sim t fuel gen).length := by
  intro fuel gen h
  match fuel, h with
  | n + 1, _ =>
      simp only [REngine.run_gens]
      split <;> simp

/-- When the threshold is never reached the loop runs all remaining
generations. -/
theorem run_gens_length_of_below (sim : Nat → RModels.SimulationResult) (t : ℚ)
    (hall : ∀ g, REvolution.compute_fitness (sim g) < t) :
    ∀ fuel gen, (REngine.run_gens sim t fuel gen).length = fuel := by
  intro fuel
  induction fuel with
  | zero => intro gen; rfl
  | succ n ih =>
      intro gen
      simp only [REngine.run_gens]
      rw [if_neg (not_le.mpr (hall gen))]
      simp [ih (gen + 1)]

/-- Stop characterization: an early stop happens exactly at the first
generation whose fitness reaches the threshold — every earlier generation
is below it, and when the loop stops before exhausting its fuel the last
result played reached the threshold. -/
theorem run_gens_stop_spec (sim : Nat → RModels.SimulationResult) (t : ℚ) :
    ∀ fuel gen,
      ((REngine.run_gens sim t fuel gen).length < fuel →
        t ≤ REvolution.compute_fitness
          (sim (gen + (REngine.run_gens sim t fuel gen).length - 1)))
      ∧ (∀ i, i + 1 < (REngine.run_gens sim t fuel gen).length →
          REvolution.compute_fitness (sim (gen + i)) < t) := by
  intro fuel
  induction fuel with
  | zero =>
      intro gen
      constructor
      · intro h; simp [REngine.run_gens] at h
      · intro i hi; simp [REngine.run_gens] at hi
  | succ n ih =>
      intro gen
      by_cases hb : t ≤ REvolution.compute_fitness (sim gen)
      · constructor
        · intro h
          simp only [REngine.run_gens, if_pos hb] at h ⊢
          simpa using hb
        · intro i hi
          simp only [REngine.run_gens, if_pos hb] at hi
          simp at hi
      · constructor
        · intro h
          simp only [REngine.run_gens, if_neg hb] at h ⊢
          rw [List.length_cons] at h ⊢
          have h2 : (REngine.run_gens sim t n (gen + 1)).length < n := by omega
          have h3 := (ih (gen + 1)).1 h2
          have h4 : 1 ≤ (REngine.run_gens sim t n (gen + 1)).length := by
            apply run_gens_length_pos
            omega
          have harith : gen + ((REngine.run_gens sim t n (gen + 1)).length + 1) - 1
              = gen + 1 + (REngine.run_gens sim t n (gen + 1)).length - 1 := by omega
          rw [harith]
          exact h3
        · intro i hi
          simp only [REngine.run_gens, if_neg hb] at hi
          rw [List.length_cons] at hi
          cases i with
          | zero => simpa using not_le.mp hb
          | succ j =>
              have hj := (ih (gen + 1)).2 j (by omega)
              have harith : gen + (j + 1) = gen + 1 + j := by omega
              rw [harith]
              exact hj

/-- C7: with the unreachable threshold 1.1 the evolution loop runs exactly
max_generations generations — the computed fitness is always below 1.1, so
termination is via the generation cap, never via the threshold test — and
in general the loop stops exactly when fitness reaches the threshold or the
generation count reaches the cap: results exist for generations 1..L with
L ≤ cap, every generation before the last is below the threshold, and an
early stop (L < cap) happens only with the last played generation at or
above the threshold. -/
theorem C7_loop_cap_termination (sim : Nat → RModels.SimulationResult)
    (max_generations : Nat) (h : 1 ≤ max_generations) :
    (REngine.run_resonance sim (11/10) max_generations).length = max_generations
    ∧ (∀ g, REvolution.compute_fitness (sim g) < 11/10)
    ∧ (∀ t : ℚ,
        (REngine.run_resonance sim t max_generations).length ≤ max_generations
        ∧ 1 ≤ (REngine.run_resonance sim t max_generations).length
        ∧ ((REngine.run_resonance sim t max_generations).length < max_generations →
            t ≤ REvolution.compute_fitness
              (sim ((REngine.run_resonance sim t max_generations).length)))
        ∧ (∀ g, 1 ≤ g → g < (REngine.run_resonance sim t max_generations).length →
            REvolution.compute_fitness (sim g) < t)) := by
  have hall : ∀ g, REvolution.compute_fitness (sim g) < 11/10 := by
    intro g
    have := (rev_fitness_bounds (sim g)).2
    linarith
  refine ⟨run_gens_length_of_below sim (11/10) hall max_generations 1, hall, ?_⟩
  intro t
  refine ⟨run_gens_length_le sim t max_generations 1,
    run_gens_length_pos sim t max_generations 1 h, ?_, ?_⟩
  · intro hlt
    have := (run_gens_stop_spec sim t max_generations 1).1 hlt
    have hpos := run_gens_length_pos sim t max_generations 1 h
    have harith : 1 + (REngine.run_gens sim t max_generations 1).length - 1
        = (REngine.run_gens sim t max_generations 1).length := by omega
    rw [harith] at this
    exact this
  · intro g hg1 hgL
    have hL : (REngine.run_resonance sim t max_generations).length
        = (REngine.run_gens sim t max_generations 1).length := rfl
    rw [hL] at hgL
    have := (run_gens_stop_spec sim t max_generations 1).2 (g - 1) (by omega)
    have harith : 1 + (g - 1) = g := by omega
    rw [harith] at this
    exact this

/-- Witness for C7: two generations with a constant simulation oracle run
to the cap under the unreachable threshold. -/
theorem C7_loop_cap_termination_witness :
    1 ≤ 2
    ∧ (REngine.run_resonance Examples.simC (11/10) 2).length = 2 :=
  ⟨by norm_num, (C7_loop_cap_termination Examples.simC 2 (by norm_num)).1⟩

end Claims3

section Claims4

open Resonance

/-- modifyAt leaves any projection untouched by the update unchanged. -/
theorem modifyAt_map_eq {b : Type} (f : AgentProfile → AgentProfile)
    (g : AgentProfile → b) (h : ∀ y, g (f y) = g y) :
    ∀ (l : List AgentProfile) (n : Nat),
      (SocialGraph.modifyAt l n f).map g = l.map g := by
  intro l
  induction l with
  | nil => intro n; rfl
  | cons x xs ih =>
      intro n
      cases n with
      | zero => simp [SocialGraph.modifyAt, h]
      | succ m => simp [SocialGraph.modifyAt, ih]

/-- Element lookup after modifyAt. -/
theorem modifyAt_getElem? (f : AgentProfile → AgentProfile) :
    ∀ (l : List AgentProfile) (n k : Nat),
      (SocialGraph.modifyAt l n f)[k]? = if k = n then l[k]?.map f else l[k]? := by
  intro l
  induction l with
  | nil =>
      intro n k
      simp [SocialGraph.modifyAt]
  | cons x xs ih =>
      intro n k
      cases n with
      | zero =>
          cases k with
          | zero => simp [SocialGraph.modifyAt]
          | succ kk => simp [SocialGraph.modifyAt]
      | succ m =>
          cases k with
          | zero => simp [SocialGraph.modifyAt]
          | succ kk => simp [SocialGraph.modifyAt, ih m kk]

end Claims4

section Claims4b

open Resonance

/-- The pair-loop step reads only the agents and the stream position; its
agent updates, stream advance and newly appended edges do not depend on the
edges already accumulated in self.edges. -/
theorem buildStep_edges_indep (rand : Nat → ℚ) (A : List AgentProfile)
    (c : Nat) (i j : Nat) (e1 e2 : List (String × String)) :
    ∃ A2 c2 δ,
      SocialGraph.buildStep rand ⟨A, e1, c⟩ i j = ⟨A2, e1 ++ δ, c2⟩
      ∧ SocialGraph.buildStep rand ⟨A, e2, c⟩ i j = ⟨A2, e2 ++ δ, c2⟩ := by
  rcases hA : A[i]? with _ | a
  · exact ⟨A, c, [], by simp [SocialGraph.buildStep, hA], by simp [SocialGraph.buildStep, hA]⟩
  · rcases hB : A[j]? with _ | b
    · exact ⟨A, c, [], by simp [SocialGraph.buildStep, hA, hB],
        by simp [SocialGraph.buildStep, hA, hB]⟩
    · by_cases hid : a.id = b.id
      · exact ⟨A, c, [], by simp [SocialGraph.buildStep, hA, hB, hid],
          by simp [SocialGraph.buildStep, hA, hB, hid]⟩
      · by_cases hr : rand c < min
            (5/100 + b.influence_score * 3/10 + (SocialGraph.sharedInterests a b : ℚ) * 15/100)
            (7/10)
        · exact ⟨SocialGraph.addFollow A i j a.id b.id, c + 1, [(a.id, b.id)],
            by simp [SocialGraph.buildStep, hA, hB, hid, hr],
            by simp [SocialGraph.buildStep, hA, hB, hid, hr]⟩
        · exact ⟨A, c + 1, [], by simp [SocialGraph.buildStep, hA, hB, hid, hr],
            by simp [SocialGraph.buildStep, hA, hB, hid, hr]⟩

/-- Edge-list independence lifted to the whole pair loop. -/
theorem foldPairs_edges_indep (rand : Nat → ℚ) :
    ∀ (pairs : List (Nat × Nat)) (A : List AgentProfile) (c : Nat)
      (e1 e2 : List (String × String)),
      ∃ A2 c2 δ,
        pairs.foldl (fun st p => SocialGraph.buildStep rand st p.1 p.2) ⟨A, e1, c⟩
            = ⟨A2, e1 ++ δ, c2⟩
        ∧ pairs.foldl (fun st p => SocialGraph.buildStep rand st p.1 p.2) ⟨A, e2, c⟩
            = ⟨A2, e2 ++ δ, c2⟩ := by
  intro pairs
  induction pairs with
  | nil =>
      intro A c e1 e2
      exact ⟨A, c, [], by simp, by simp⟩
  | cons p rest ih =>
      intro A c e1 e2
      obtain ⟨A1, c1, d1, h1, h2⟩ := buildStep_edges_indep rand A c p.1 p.2 e1 e2
      obtain ⟨A2, c2, d2, h3, h4⟩ := ih A1 c1 (e1 ++ d1) (e2 ++ d1)
      refine ⟨A2, c2, d1 ++ d2, ?_, ?_⟩
      · simp only [List.foldl_cons]
        rw [h1, h3, List.append_assoc]
      · simp only [List.foldl_cons]
        rw [h2, h4, List.append_assoc]

/-- The pair loop only rewires adjacency lists: clearing its output gives
back the cleared input. -/
theorem foldPairs_strip (rand : Nat → ℚ) :
    ∀ (pairs : List (Nat × Nat)) (st : SocialGraph.BuildState),
      ((pairs.foldl (fun st p => SocialGraph.buildStep rand st p.1 p.2) st).agents.map
          (fun a => { a with followers := ([] : List String), following := ([] : List String) }))
        = st.agents.map
            (fun a => { a with followers := ([] : List String), following := ([] : List String) }) := by
  have hstep : ∀ (s : SocialGraph.BuildState) (i j : Nat),
      ((SocialGraph.buildStep rand s i j).agents.map
          (fun a => { a with followers := ([] : List String), following := ([] : List String) }))
        = s.agents.map
            (fun a => { a with followers := ([] : List String), following := ([] : List String) }) := by
    intro s i j
    rcases hA : s.agents[i]? with _ | a
    · simp [SocialGraph.buildStep, hA]
    · rcases hB : s.agents[j]? with _ | b
      · simp [SocialGraph.buildStep, hA, hB]
      · by_cases hid : a.id = b.id
        · simp [SocialGraph.buildStep, hA, hB, hid]
        · by_cases hr : rand s.c < min
              (5/100 + b.influence_score * 3/10 + (SocialGraph.sharedInterests a b : ℚ) * 15/100)
              (7/10)
          · have hgoal : (SocialGraph.buildStep rand s i j).agents
                = SocialGraph.addFollow s.agents i j a.id b.id := by
              simp [SocialGraph.buildStep, hA, hB, hid, hr]
            rw [hgoal]
            simp only [SocialGraph.addFollow]
            refine (modifyAt_map_eq _ _ ?_ _ _).trans (modifyAt_map_eq _ _ ?_ _ _) <;>
              exact fun y => rfl
          · simp [SocialGraph.buildStep, hA, hB, hid, hr]
  intro pairs
  induction pairs with
  | nil => intro st; rfl
  | cons p rest ih =>
      intro st
      simp only [List.foldl_cons]
      rw [ih, hstep]

end Claims4b

section Claims4c

open Resonance

/-- Definitional unfolding of build at an explicit graph record. -/
theorem build_unfold (rand : Nat → ℚ) (A : List AgentProfile)
    (E : List (String × String)) :
    SocialGraph.build rand ⟨A, E⟩
      = ⟨((SocialGraph.pairOrder (A.map (fun a => { a with followers := ([] : List String), following := ([] : List String) })).length).foldl
            (fun st p => SocialGraph.buildStep rand st p.1 p.2)
            ⟨A.map (fun a => { a with followers := ([] : List String), following := ([] : List String) }), E, 0⟩).agents,
          ((SocialGraph.pairOrder (A.map (fun a => { a with followers := ([] : List String), following := ([] : List String) })).length).foldl
            (fun st p => SocialGraph.buildStep rand st p.1 p.2)
            ⟨A.map (fun a => { a with followers := ([] : List String), following := ([] : List String) }), E, 0⟩).edges⟩ := rfl

/-- Rebuilding with the stream restarted from the same seed reproduces the
same adjacency lists but appends a second copy of the materialized edge
list to the never-cleared self.edges. -/
theorem build_twice (rand : Nat → ℚ) (g : SocialGraph.Graph) :
    ∃ δ, (SocialGraph.build rand (SocialGraph.build rand g)).agents
        = (SocialGraph.build rand g).agents
      ∧ (SocialGraph.build rand g).edges = g.edges ++ δ
      ∧ (SocialGraph.build rand (SocialGraph.build rand g)).edges
          = (SocialGraph.build rand g).edges ++ δ := by
  obtain ⟨A2, c2, δ, h1, _⟩ := foldPairs_edges_indep rand
    (SocialGraph.pairOrder (g.agents.map (fun a => { a with followers := ([] : List String), following := ([] : List String) })).length)
    (g.agents.map (fun a => { a with followers := ([] : List String), following := ([] : List String) }))
    0 g.edges g.edges
  have hb1 : SocialGraph.build rand g = ⟨A2, g.edges ++ δ⟩ := by
    simp only [SocialGraph.build]
    rw [h1]
  have hstrip0 := foldPairs_strip rand
    (SocialGraph.pairOrder (g.agents.map (fun a => { a with followers := ([] : List String), following := ([] : List String) })).length)
    ⟨g.agents.map (fun a => { a with followers := ([] : List String), following := ([] : List String) }), g.edges, 0⟩
  rw [h1] at hstrip0
  dsimp only at hstrip0
  have hidem : (g.agents.map (fun a => { a with followers := ([] : List String), following := ([] : List String) })).map (fun a => { a with followers := ([] : List String), following := ([] : List String) })
      = g.agents.map (fun a => { a with followers := ([] : List String), following := ([] : List String) }) := by
    rw [List.map_map]
    rfl
  rw [hidem] at hstrip0
  have hb2 : SocialGraph.build rand (SocialGraph.build rand g)
      = ⟨A2, (g.edges ++ δ) ++ δ⟩ := by
    rw [hb1, build_unfold rand A2 (g.edges ++ δ), hstrip0]
    obtain ⟨A3, c3, δ3, k1, k2⟩ := foldPairs_edges_indep rand
      (SocialGraph.pairOrder (g.agents.map (fun a => { a with followers := ([] : List String), following := ([] : List String) })).length)
      (g.agents.map (fun a => { a with followers := ([] : List String), following := ([] : List String) }))
      0 g.edges (g.edges ++ δ)
    have hEq := k1.symm.trans h1
    have hA : A3 = A2 := congrArg SocialGraph.BuildState.agents hEq
    have hE : g.edges ++ δ3 = g.edges ++ δ := congrArg SocialGraph.BuildState.edges hEq
    have hδ : δ3 = δ := by
      simpa using hE
    rw [k2, hA, hδ]
  exact ⟨δ, by rw [hb2, hb1], by rw [hb1], by rw [hb2, hb1]⟩

end Claims4c

section Claims4d

open Resonance

/-- C4: the builder is not idempotent as claimed.  On a two-agent set where
every considered ordered pair materializes (probability 0.05, all draws 0),
rebuilding with the stream restarted clears and identically rewires the
follower and following lists, but self.edges is never cleared: the second
build appends a duplicate copy of both edges, growing the edge list from
two to four entries instead of leaving it identical. -/
theorem C4_rebuild_grows_edges :
    Examples.gBuild2.agents = Examples.gBuild1.agents
    ∧ Examples.gBuild1.edges = [("a", "b"), ("b", "a")]
    ∧ Examples.gBuild2.edges = [("a", "b"), ("b", "a"), ("a", "b"), ("b", "a")]
    ∧ Examples.gBuild2.edges ≠ Examples.gBuild1.edges := by
  have hs1 : SocialGraph.buildStep Examples.rand0 ⟨Examples.gAgents, [], 0⟩ 0 0
      = ⟨Examples.gAgents, [], 0⟩ := by
    norm_num [SocialGraph.buildStep, Examples.gAgents, Examples.mkAgent]
  have hs2 : SocialGraph.buildStep Examples.rand0 ⟨Examples.gAgents, [], 0⟩ 0 1
      = ⟨[Examples.mkAgent "a" 0 [] [] ["b"], Examples.mkAgent "b" 0 [] ["a"] []],
          [("a", "b")], 1⟩ := by
    norm_num [SocialGraph.buildStep, SocialGraph.sharedInterests, SocialGraph.addFollow,
      SocialGraph.modifyAt, Examples.gAgents, Examples.mkAgent, Examples.rand0]
    decide
  have hs3 : SocialGraph.buildStep Examples.rand0
      ⟨[Examples.mkAgent "a" 0 [] [] ["b"], Examples.mkAgent "b" 0 [] ["a"] []],
        [("a", "b")], 1⟩ 1 0
      = ⟨[Examples.mkAgent "a" 0 [] ["b"] ["b"], Examples.mkAgent "b" 0 [] ["a"] ["a"]],
          [("a", "b"), ("b", "a")], 2⟩ := by
    norm_num [SocialGraph.buildStep, SocialGraph.sharedInterests, SocialGraph.addFollow,
      SocialGraph.modifyAt, Examples.mkAgent, Examples.rand0]
    decide
  have hs4 : SocialGraph.buildStep Examples.rand0
      ⟨[Examples.mkAgent "a" 0 [] ["b"] ["b"], Examples.mkAgent "b" 0 [] ["a"] ["a"]],
        [("a", "b"), ("b", "a")], 2⟩ 1 1
      = ⟨[Examples.mkAgent "a" 0 [] ["b"] ["b"], Examples.mkAgent "b" 0 [] ["a"] ["a"]],
          [("a", "b"), ("b", "a")], 2⟩ := by
    norm_num [SocialGraph.buildStep, Examples.mkAgent]
  have hcl : Examples.gAgents.map
      (fun a => { a with followers := ([] : List String), following := ([] : List String) })
      = Examples.gAgents := by
    simp [Examples.gAgents, Examples.mkAgent]
  have hp : SocialGraph.pairOrder Examples.gAgents.length
      = [(0, 0), (0, 1), (1, 0), (1, 1)] := by decide
  have h1 : Examples.gBuild1
      = ⟨[Examples.mkAgent "a" 0 [] ["b"] ["b"], Examples.mkAgent "b" 0 [] ["a"] ["a"]],
          [("a", "b"), ("b", "a")]⟩ := by
    show SocialGraph.build Examples.rand0 (SocialGraph.mk_graph Examples.gAgents) = _
    simp only [SocialGraph.build, SocialGraph.mk_graph]
    rw [hcl, hp]
    simp only [List.foldl_cons, List.foldl_nil]
    rw [hs1, hs2, hs3, hs4]
  obtain ⟨δ, hag, hd1, hd2⟩ :=
    build_twice Examples.rand0 (SocialGraph.mk_graph Examples.gAgents)
  have hg1 : Examples.gBuild1
      = SocialGraph.build Examples.rand0 (SocialGraph.mk_graph Examples.gAgents) := rfl
  have hg2 : Examples.gBuild2
      = SocialGraph.build Examples.rand0
          (SocialGraph.build Examples.rand0 (SocialGraph.mk_graph Examples.gAgents)) := rfl
  have he1 : Examples.gBuild1.edges = [("a", "b"), ("b", "a")] := by rw [h1]
  have hδ : δ = [("a", "b"), ("b", "a")] := by
    have hx : Examples.gBuild1.edges = (SocialGraph.mk_graph Examples.gAgents).edges ++ δ := by
      rw [hg1]; exact hd1
    rw [he1] at hx
    simpa [SocialGraph.mk_graph] using hx.symm
  have he2 : Examples.gBuild2.edges = [("a", "b"), ("b", "a"), ("a", "b"), ("b", "a")] := by
    have hx : Examples.gBuild2.edges = Examples.gBuild1.edges ++ δ := by
      rw [hg2, hg1]; exact hd2
    rw [hx, he1, hδ]
    rfl
  refine ⟨?_, he1, he2, ?_⟩
  · rw [hg2, hg1]; exact hag
  · rw [he1, he2]; decide

end Claims4d

section Claims10

open Resonance

/-- Distinct positions in an id-unique agent list carry distinct ids. -/
theorem ids_distinct_of_getElem? {A : List AgentProfile} {ids0 : List String}
    (hmap : A.map (fun a => a.id) = ids0) (hN : ids0.Nodup)
    {i k : Nat} {a x : AgentProfile}
    (hi : A[i]? = some a) (hk : A[k]? = some x) (hne : i ≠ k) : a.id ≠ x.id := by
  intro heq
  apply hne
  have h1 : (A.map (fun a => a.id))[i]? = some a.id := by
    rw [List.getElem?_map, hi]; rfl
  have h2 : (A.map (fun a => a.id))[k]? = some x.id := by
    rw [List.getElem?_map, hk]; rfl
  have hN2 : (A.map (fun a => a.id)).Nodup := by rw [hmap]; exact hN
  obtain ⟨hlen, -⟩ := List.getElem?_eq_some.mp h1
  exact List.getElem?_inj hlen hN2 (by rw [h1, h2, heq])

/-- The pair-loop step preserves the build invariant when agent ids are
unique. -/
theorem buildStep_BuildInv (rand : Nat → ℚ) (ids0 : List String)
    (hN : ids0.Nodup) (st : SocialGraph.BuildState) (i j : Nat)
    (h : SocialGraph.BuildInv ids0 st) :
    SocialGraph.BuildInv ids0 (SocialGraph.buildStep rand st i j) := by
  obtain ⟨hmap, hchar, hself⟩ := h
  rcases hA : st.agents[i]? with _ | a
  · rw [show SocialGraph.buildStep rand st i j = st by simp [SocialGraph.buildStep, hA]]
    exact ⟨hmap, hchar, hself⟩
  rcases hB : st.agents[j]? with _ | b
  · rw [show SocialGraph.buildStep rand st i j = st by simp [SocialGraph.buildStep, hA, hB]]
    exact ⟨hmap, hchar, hself⟩
  by_cases hid : a.id = b.id
  · rw [show SocialGraph.buildStep rand st i j = st by
      simp [SocialGraph.buildStep, hA, hB, hid]]
    exact ⟨hmap, hchar, hself⟩
  by_cases hr : rand st.c < min
      (5/100 + b.influence_score * 3/10 + (SocialGraph.sharedInterests a b : ℚ) * 15/100)
      (7/10)
  swap
  · rw [show SocialGraph.buildStep rand st i j = { st with c := st.c + 1 } by
      simp [SocialGraph.buildStep, hA, hB, hid, hr]]
    exact ⟨hmap, hchar, hself⟩
  rw [show SocialGraph.buildStep rand st i j
      = ⟨SocialGraph.addFollow st.agents i j a.id b.id,
          st.edges ++ [(a.id, b.id)], st.c + 1⟩ by
    simp [SocialGraph.buildStep, hA, hB, hid, hr]]
  have hij : i ≠ j := by
    intro he
    rw [he, hB] at hA
    exact hid (congrArg AgentProfile.id (Option.some.inj hA).symm)
  refine ⟨?_, ?_, ?_⟩
  · simp only [SocialGraph.addFollow]
    refine ((modifyAt_map_eq _ _ ?_ _ _).trans ((modifyAt_map_eq _ _ ?_ _ _).trans hmap)) <;>
      exact fun y => rfl
  · intro k x hx
    simp only [SocialGraph.addFollow] at hx
    rw [modifyAt_getElem?, modifyAt_getElem?] at hx
    by_cases hkj : k = j
    · rw [if_pos hkj, hkj, if_neg (Ne.symm hij), hB, Option.map_some'] at hx
      have hxb : x = { b with followers := b.followers ++ [a.id] } := by
        exact (Option.some.inj hx).symm
      obtain ⟨hbf, hbl⟩ := hchar j b hB
      subst hxb
      constructor
      · show b.following = _
        rw [hbf, List.filter_append]
        have : List.filter (fun e => e.1 = b.id) [(a.id, b.id)] = [] := by
          simp [hid]
        rw [this, List.append_nil]
      · show b.followers ++ [a.id] = _
        rw [hbl, List.filter_append]
        have : List.filter (fun e => e.2 = b.id) [(a.id, b.id)] = [(a.id, b.id)] := by
          simp
        rw [this, List.map_append]
        rfl
    · rw [if_neg hkj] at hx
      by_cases hki : k = i
      · rw [if_pos hki, hki, hA, Option.map_some'] at hx
        have hxa : x = { a with following := a.following ++ [b.id] } := by
          exact (Option.some.inj hx).symm
        obtain ⟨haf, hal⟩ := hchar i a hA
        subst hxa
        constructor
        · show a.following ++ [b.id] = _
          rw [haf, List.filter_append]
          have : List.filter (fun e => e.1 = a.id) [(a.id, b.id)] = [(a.id, b.id)] := by
            simp
          rw [this, List.map_append]
          rfl
        · show a.followers = _
          rw [hal, List.filter_append]
          have : List.filter (fun e => e.2 = a.id) [(a.id, b.id)] = [] := by
            simp
            intro hcon
            exact hid hcon.symm
          rw [this, List.append_nil]
      · rw [if_neg hki] at hx
        obtain ⟨hxf, hxl⟩ := hchar k x hx
        have hxa : a.id ≠ x.id := ids_distinct_of_getElem? hmap hN hA hx (Ne.symm hki)
        have hxb : b.id ≠ x.id := ids_distinct_of_getElem? hmap hN hB hx (Ne.symm hkj)
        constructor
        · rw [hxf, List.filter_append]
          have : List.filter (fun e => e.1 = x.id) [(a.id, b.id)] = [] := by
            simp [hxa]
          rw [this, List.append_nil]
        · rw [hxl, List.filter_append]
          have : List.filter (fun e => e.2 = x.id) [(a.id, b.id)] = [] := by
            simp [hxb]
          rw [this, List.append_nil]
  · intro e he
    rcases List.mem_append.mp he with h1 | h2
    · exact hself e h1
    · have : e = (a.id, b.id) := by simpa using h2
      rw [this]
      exact hid

/-- The build invariant is preserved by the whole pair loop. -/
theorem foldPairs_BuildInv (rand : Nat → ℚ) (ids0 : List String)
    (hN : ids0.Nodup) :
    ∀ (pairs : List (Nat × Nat)) (st : SocialGraph.BuildState),
      SocialGraph.BuildInv ids0 st →
      SocialGraph.BuildInv ids0
        (pairs.foldl (fun st p => SocialGraph.buildStep rand st p.1 p.2) st) := by
  intro pairs
  induction pairs with
  | nil => intro st h; exact h
  | cons p rest ih =>
      intro st h
      simp only [List.foldl_cons]
      exact ih _ (buildStep_BuildInv rand ids0 hN st p.1 p.2 h)

end Claims10

section Claims10b

open Resonance

/-- Membership in a characterized following list is edge membership. -/
theorem char_mem_following {E : List (String × String)} {x : AgentProfile}
    (hc : x.following = (E.filter (fun e => e.1 = x.id)).map (fun e => e.2))
    (v : String) :
    v ∈ x.following ↔ (x.id, v) ∈ E := by
  rw [hc]
  simp only [List.mem_map, List.mem_filter, decide_eq_true_eq]
  constructor
  · rintro ⟨e, ⟨heE, h1⟩, h2⟩
    obtain ⟨e1, e2⟩ := e
    simp only at h1 h2
    subst h1
    subst h2
    exact heE
  · intro hE
    exact ⟨(x.id, v), ⟨hE, rfl⟩, rfl⟩

/-- Membership in a characterized followers list is edge membership. -/
theorem char_mem_followers {E : List (String × String)} {x : AgentProfile}
    (hc : x.followers = (E.filter (fun e => e.2 = x.id)).map (fun e => e.1))
    (v : String) :
    v ∈ x.followers ↔ (v, x.id) ∈ E := by
  rw [hc]
  simp only [List.mem_map, List.mem_filter, decide_eq_true_eq]
  constructor
  · rintro ⟨e, ⟨heE, h1⟩, h2⟩
    obtain ⟨e1, e2⟩ := e
    simp only at h1 h2
    subst h1
    subst h2
    exact heE
  · intro hE
    exact ⟨(v, x.id), ⟨hE, rfl⟩, rfl⟩

/-- C10: after a single build on an agent set with unique ids, the follower
and following lists agree with the materialized edge list — for agents a
and b with distinct ids, b is in a's following exactly when a is in b's
followers, exactly when the edge (a, b) was materialized — and no agent
appears in its own adjacency lists.  The builder starts by clearing every
adjacency list, so the lists' starting contents are irrelevant. -/
theorem C10_build_consistency (rand : Nat → ℚ) (agents : List AgentProfile)
    (hN : (agents.map (fun a => a.id)).Nodup) :
    SocialGraph.consistent (SocialGraph.build rand (SocialGraph.mk_graph agents)) := by
  have hinit : SocialGraph.BuildInv (agents.map (fun a => a.id))
      ⟨agents.map (fun a => { a with followers := ([] : List String), following := ([] : List String) }), [], 0⟩ := by
    refine ⟨?_, ?_, ?_⟩
    · rw [List.map_map]; rfl
    · intro k x hx
      rw [List.getElem?_map] at hx
      rcases hy : agents[k]? with _ | y
      · rw [hy] at hx; simp at hx
      · rw [hy, Option.map_some'] at hx
        have hxy := (Option.some.inj hx).symm
        subst hxy
        exact ⟨rfl, rfl⟩
    · intro e he
      simp at he
  have hfold := foldPairs_BuildInv rand (agents.map (fun a => a.id)) hN
    (SocialGraph.pairOrder (agents.map (fun a => { a with followers := ([] : List String), following := ([] : List String) })).length)
    ⟨agents.map (fun a => { a with followers := ([] : List String), following := ([] : List String) }), [], 0⟩ hinit
  obtain ⟨hmap, hchar, hself⟩ := hfold
  constructor
  · intro a ha b hb hne
    have ha2 : ∃ k, (SocialGraph.build rand (SocialGraph.mk_graph agents)).agents[k]?
        = some a := List.mem_iff_getElem?.mp ha
    have hb2 : ∃ k, (SocialGraph.build rand (SocialGraph.mk_graph agents)).agents[k]?
        = some b := List.mem_iff_getElem?.mp hb
    obtain ⟨ka, hka⟩ := ha2
    obtain ⟨kb, hkb⟩ := hb2
    obtain ⟨haf, -⟩ := hchar ka a hka
    obtain ⟨-, hbl⟩ := hchar kb b hkb
    exact ⟨char_mem_following haf b.id, char_mem_followers hbl a.id⟩
  · intro a ha
    obtain ⟨ka, hka⟩ := List.mem_iff_getElem?.mp ha
    obtain ⟨haf, hal⟩ := hchar ka a hka
    constructor
    · intro hmem
      exact hself _ ((char_mem_following haf a.id).mp hmem) rfl
    · intro hmem
      exact hself _ ((char_mem_followers hal a.id).mp hmem) rfl

/-- Witness for C10: the consistency property at the concrete two-agent
build. -/
theorem C10_build_consistency_witness :
    SocialGraph.consistent Examples.gBuild1 :=
  C10_build_consistency Examples.rand0 Examples.gAgents (by decide)

end Claims10b

section Claims39a

open Resonance RSimulation

/-- processViewer when the id lookup fails (Python would raise KeyError):
state unchanged. -/
theorem processViewer_none (policy : Policy) (inflIds : List String)
    (tick : Nat) (st : SimState) (aid : String)
    (h : st.agents.find? (fun a => a.id = aid) = none) :
    processViewer policy inflIds tick st aid = st := by
  simp [processViewer, h]

/-- processViewer when the id lookup succeeds: mood write, one appended
interaction authored by the viewer, exposure mark. -/
theorem processViewer_some (policy : Policy) (inflIds : List String)
    (tick : Nat) (st : SimState) (aid : String) (ag : AgentProfile)
    (h : st.agents.find? (fun a => a.id = aid) = some ag) :
    processViewer policy inflIds tick st aid
      = { agents := updateMood st.agents aid
            (policy ag (visibleTo ag inflIds st.ledger)).2.2,
          ledger := st.ledger
            ++ [⟨aid, (policy ag (visibleTo ag inflIds st.ledger)).1,
                (policy ag (visibleTo ag inflIds st.ledger)).2.1, tick⟩],
          saw := insertId st.saw aid,
          c := st.c } := by
  simp [processViewer, h]

/-- Membership is preserved by the exposure-set insert. -/
theorem mem_insertId {saw : List String} {x : String} (y : String)
    (h : x ∈ saw) : x ∈ insertId saw y := by
  unfold insertId
  split
  · exact h
  · exact List.mem_append.mpr (Or.inl h)

/-- The inserted id is a member of the exposure set. -/
theorem self_mem_insertId (saw : List String) (y : String) :
    y ∈ insertId saw y := by
  unfold insertId
  split
  · assumption
  · exact List.mem_append.mpr (Or.inr (by simp))

/-- Mood writes do not change the agent id sequence. -/
theorem updateMood_map_id (A : List AgentProfile) (aid : String) (m : Mood) :
    (updateMood A aid m).map (fun a => a.id) = A.map (fun a => a.id) := by
  unfold updateMood
  rw [List.map_map]
  apply List.map_congr_left
  intro a _
  by_cases h : a.id = aid <;> simp [h]

/-- A first-match id lookup succeeds exactly on present ids. -/
theorem find_id_of_mem (A : List AgentProfile) (aid : String)
    (h : aid ∈ A.map (fun a => a.id)) :
    ∃ ag, A.find? (fun a => a.id = aid) = some ag ∧ ag.id = aid := by
  induction A with
  | nil => simp at h
  | cons x xs ih =>
      by_cases hx : x.id = aid
      · exact ⟨x, by simp [List.find?_cons, hx], hx⟩
      · have h2 : aid ∈ xs.map (fun a => a.id) := by
          rcases List.mem_map.mp h with ⟨y, hy, hyid⟩
          rcases List.mem_cons.mp hy with rfl | hmem
          · exact absurd hyid hx
          · exact List.mem_map.mpr ⟨y, hmem, hyid⟩
        obtain ⟨ag, hfind, hid⟩ := ih h2
        exact ⟨ag, by simp [List.find?_cons, hx, hfind], hid⟩

end Claims39a

section Claims39b

open Resonance RSimulation

/-- Processing one viewer not yet in the ledger preserves the invariant,
and adds at most that viewer as a new ledger author. -/
theorem processViewer_SimInv (policy : Policy) (inflIds : List String)
    (tick : Nat) (st : SimState) (aid : String)
    (h : SimInv st) (hnew : aid ∉ st.ledger.map (fun i => i.agent_id)) :
    SimInv (processViewer policy inflIds tick st aid)
    ∧ ∀ x ∈ (processViewer policy inflIds tick st aid).ledger.map (fun i => i.agent_id),
        x ∈ st.ledger.map (fun i => i.agent_id) ∨ x = aid := by
  rcases hf : st.agents.find? (fun a => a.id = aid) with _ | ag
  · rw [processViewer_none policy inflIds tick st aid hf]
    exact ⟨h, fun x hx => Or.inl hx⟩
  · rw [processViewer_some policy inflIds tick st aid ag hf]
    obtain ⟨hnd, hsub⟩ := h
    refine ⟨⟨?_, ?_⟩, ?_⟩
    · simp only [List.map_append]
      simp [List.nodup_append, hnd, hnew]
    · intro x hx
      simp only [List.map_append] at hx
      rcases List.mem_append.mp hx with h1 | h2
      · exact mem_insertId aid (hsub x h1)
      · have : x = aid := by simpa using h2
        rw [this]
        exact self_mem_insertId st.saw aid
    · intro x hx
      simp only [List.map_append] at hx
      rcases List.mem_append.mp hx with h1 | h2
      · exact Or.inl h1
      · exact Or.inr (by simpa using h2)

/-- Folding the per-viewer loop over pairwise-distinct viewers that are not
yet ledger authors preserves the invariant; new authors come only from the
viewer list. -/
theorem foldViewers_SimInv (policy : Policy) (inflIds : List String) (tick : Nat) :
    ∀ (vs : List String) (st : SimState), SimInv st → vs.Nodup →
      (∀ v ∈ vs, v ∉ st.ledger.map (fun i => i.agent_id)) →
      SimInv (vs.foldl (processViewer policy inflIds tick) st)
      ∧ ∀ x ∈ (vs.foldl (processViewer policy inflIds tick) st).ledger.map
            (fun i => i.agent_id),
          x ∈ st.ledger.map (fun i => i.agent_id) ∨ x ∈ vs := by
  intro vs
  induction vs with
  | nil => intro st h _ _; exact ⟨h, fun x hx => Or.inl hx⟩
  | cons v rest ih =>
      intro st h hnd hfresh
      obtain ⟨h1, h2⟩ := processViewer_SimInv policy inflIds tick st v h
        (hfresh v (List.mem_cons_self v rest))
      have hnd2 := (List.nodup_cons.mp hnd).2
      have hvne := (List.nodup_cons.mp hnd).1
      have hfresh2 : ∀ u ∈ rest,
          u ∉ (processViewer policy inflIds tick st v).ledger.map (fun i => i.agent_id) := by
        intro u hu hcon
        rcases h2 u hcon with hold | heq
        · exact hfresh u (List.mem_cons_of_mem v hu) hold
        · exact hvne (heq ▸ hu)
      obtain ⟨h3, h4⟩ := ih (processViewer policy inflIds tick st v) h1 hnd2 hfresh2
      refine ⟨by simpa [List.foldl_cons] using h3, ?_⟩
      intro x hx
      rw [List.foldl_cons] at hx
      rcases h4 x hx with hold | hrest
      · rcases h2 x hold with hold2 | heq
        · exact Or.inl hold2
        · exact Or.inr (heq ▸ List.mem_cons_self v rest)
      · exact Or.inr (List.mem_cons_of_mem v hrest)

/-- Every share-relay viewer is outside the exposed set. -/
theorem shareViewers_not_saw (agents : List AgentProfile) (saw : List String) :
    ∀ (ledger : List Interaction) (v : String),
      v ∈ shareViewers agents saw ledger → v ∉ saw := by
  intro ledger
  induction ledger with
  | nil => intro v hv; simp [shareViewers] at hv
  | cons ix rest ih =>
      intro v hv
      unfold shareViewers at hv
      rcases List.mem_append.mp hv with h1 | h2
      · split at h1
        · have := (List.mem_filter.mp h1).2
          simpa using this
        · simp at h1
      · exact ih v h2

/-- Every comment-relay candidate passed by a coin flip is outside the
exposed set. -/
theorem coinFilter_not_saw (rand : Nat → ℚ) (saw : List String) :
    ∀ (fs : List String) (c : Nat) (v : String),
      v ∈ (coinFilter rand saw fs c).1 → v ∉ saw := by
  intro fs
  induction fs with
  | nil => intro c v hv; simp [coinFilter] at hv
  | cons f rest ih =>
      intro c v hv
      unfold coinFilter at hv
      by_cases hf : f ∈ saw
      · rw [if_pos hf] at hv
        exact ih c v hv
      · rw [if_neg hf] at hv
        simp only at hv
        split at hv
        · rcases List.mem_cons.mp hv with rfl | hmem
          · exact hf
          · exact ih (c + 1) v hmem
        · exact ih (c + 1) v hv

/-- Every comment-relay viewer is outside the exposed set. -/
theorem commentViewers_not_saw (rand : Nat → ℚ) (agents : List AgentProfile)
    (saw : List String) :
    ∀ (ledger : List Interaction) (c : Nat) (v : String),
      v ∈ (commentViewers rand agents saw ledger c).1 → v ∉ saw := by
  intro ledger
  induction ledger with
  | nil => intro c v hv; simp [commentViewers] at hv
  | cons ix rest ih =>
      intro c v hv
      unfold commentViewers at hv
      split at hv
      · simp only at hv
        rcases List.mem_append.mp hv with h1 | h2
        · exact coinFilter_not_saw rand saw _ _ v h1
        · exact ih _ v h2
      · exact ih c v hv

end Claims39b

section Claims39c

open Resonance RSimulation

/-- One tick preserves the invariant: tick 0 runs the deduplicated seeded
viewers on an empty ledger, later ticks run relay viewers filtered against
the exposed set. -/
theorem runTick_SimInv (policy : Policy) (rand : Nat → ℚ)
    (inflIds iv : List String) (st : SimState) (tick : Nat)
    (h : SimInv st) (hiv : iv.Nodup) (h0 : tick = 0 → st.ledger = []) :
    SimInv (runTick policy rand inflIds iv st tick) := by
  by_cases ht : tick = 0
  · simp only [runTick, if_pos ht]
    refine (foldViewers_SimInv policy inflIds tick iv _ h hiv ?_).1
    intro v hv
    rw [h0 ht]
    simp
  · simp only [runTick, if_neg ht]
    refine (foldViewers_SimInv policy inflIds tick
      ((shareViewers st.agents st.saw st.ledger
        ++ (commentViewers rand st.agents st.saw st.ledger st.c).1).dedup)
      { st with c := (commentViewers rand st.agents st.saw st.ledger st.c).2 }
      h (List.nodup_dedup _) ?_).1
    intro v hv hcon
    have hv2 := List.mem_dedup.mp hv
    have hsaw : v ∉ st.saw := by
      rcases List.mem_append.mp hv2 with h1 | h2
      · exact shareViewers_not_saw st.agents st.saw st.ledger v h1
      · exact commentViewers_not_saw rand st.agents st.saw st.ledger st.c v h2
    exact hsaw (h.2 v hcon)

/-- The invariant survives any sequence of later (nonzero) ticks. -/
theorem foldTicks_SimInv (policy : Policy) (rand : Nat → ℚ)
    (inflIds iv : List String) (hiv : iv.Nodup) :
    ∀ (ts : List Nat) (st : SimState), (∀ t ∈ ts, t ≠ 0) → SimInv st →
      SimInv (ts.foldl (runTick policy rand inflIds iv) st) := by
  intro ts
  induction ts with
  | nil => intro st _ h; exact h
  | cons t rest ih =>
      intro st hts h
      rw [List.foldl_cons]
      exact ih _ (fun u hu => hts u (List.mem_cons_of_mem t hu))
        (runTick_SimInv policy rand inflIds iv st t h hiv
          (fun h0 => absurd h0 (hts t (List.mem_cons_self t rest))))

/-- C3: for every decision oracle, random stream, agent set with unique
ids, random sample and tick count, each agent id appears at most once in
the generation's ledger: an agent is exposed and decides at most once per
generation. -/
theorem C3_at_most_once (policy : Policy) (rand : Nat → ℚ)
    (agents sample : List AgentProfile) (num_ticks : Nat)
    (_hN : (agents.map (fun a => a.id)).Nodup) :
    ((run_simulation policy rand agents sample num_ticks).ledger.map
        (fun i => i.agent_id)).Nodup := by
  have key : SimInv (run_simulation policy rand agents sample num_ticks) := by
    simp only [run_simulation]
    cases num_ticks with
    | zero =>
        simp only [List.range_zero, List.foldl_nil]
        exact ⟨by simp, by simp⟩
    | succ n =>
        rw [List.range_succ_eq_map, List.foldl_cons]
        apply foldTicks_SimInv policy rand _ _ (List.nodup_dedup _)
        · intro t ht
          rcases List.mem_map.mp ht with ⟨m, _, rfl⟩
          exact Nat.succ_ne_zero m
        · apply runTick_SimInv
          · exact ⟨by simp, by simp⟩
          · exact List.nodup_dedup _
          · intro _; rfl
  exact key.1

/-- Witness for C3: a one-agent, one-tick run with the constant ignore
policy has a duplicate-free ledger author list. -/
theorem C3_at_most_once_witness :
    (Examples.soloAgents.map (fun a => a.id)).Nodup
    ∧ ((run_simulation Examples.policy0 Examples.rand0 Examples.soloAgents [] 1).ledger.map
        (fun i => i.agent_id)).Nodup :=
  ⟨by decide,
    C3_at_most_once Examples.policy0 Examples.rand0 Examples.soloAgents [] 1 (by decide)⟩

end Claims39c

section Claims39d

open Resonance RSimulation

/-- Stable descending insertion is a permutation of consing. -/
theorem insertDesc_perm (key : AgentProfile → Nat) (x : AgentProfile) :
    ∀ l : List AgentProfile, List.Perm (insertDesc key x l) (x :: l) := by
  intro l
  induction l with
  | nil => exact List.Perm.refl _
  | cons y ys ih =>
      unfold insertDesc
      split
      · exact List.Perm.refl _
      · exact (List.Perm.cons y ih).trans (List.Perm.swap x y ys)

/-- The stable descending sort permutes its input. -/
theorem sortDesc_perm (key : AgentProfile → Nat) :
    ∀ l : List AgentProfile, List.Perm (sortDesc key l) l := by
  intro l
  induction l with
  | nil => exact List.Perm.refl _
  | cons a rest ih =>
      unfold sortDesc
      simp only [List.foldr_cons]
      exact (insertDesc_perm key a _).trans (List.Perm.cons a ih)

/-- Influencers are members of the agent set. -/
theorem influencers_subset (agents : List AgentProfile) :
    ∀ a ∈ influencers agents, a ∈ agents := by
  intro a ha
  have h1 : a ∈ sortDesc (fun a => a.followers.length) agents :=
    (List.take_subset 5 _) ha
  exact (sortDesc_perm _ agents).mem_iff.mp h1

/-- There are exactly min 5 N influencers. -/
theorem influencers_length (agents : List AgentProfile) :
    (influencers agents).length = min 5 agents.length := by
  unfold influencers
  rw [List.length_take, (sortDesc_perm _ agents).length_eq]

/-- Influencer ids are pairwise distinct when agent ids are. -/
theorem influencers_ids_nodup (agents : List AgentProfile)
    (hN : (agents.map (fun a => a.id)).Nodup) :
    ((influencers agents).map (fun a => a.id)).Nodup := by
  have hperm : List.Perm
      ((sortDesc (fun a => a.followers.length) agents).map (fun a => a.id))
      (agents.map (fun a => a.id)) :=
    (sortDesc_perm _ agents).map _
  have hnd : ((sortDesc (fun a => a.followers.length) agents).map (fun a => a.id)).Nodup :=
    hperm.nodup_iff.mpr hN
  unfold influencers
  rw [List.map_take]
  exact List.Nodup.sublist (List.take_sublist 5 _) hnd
/-- Every influencer id is seeded into the tick-0 exposure set, whatever
the random sample. -/
theorem influencers_mem_initial_viewers (agents sample : List AgentProfile) :
    ∀ a ∈ influencers agents, a.id ∈ initial_viewers agents sample := by
  intro a ha
  unfold initial_viewers
  rw [List.mem_dedup]
  exact List.mem_map.mpr ⟨a, List.mem_append.mpr (Or.inl ha), rfl⟩

/-- The tick-0 exposure set has at least min 5 N members. -/
theorem initial_viewers_length (agents sample : List AgentProfile)
    (hN : (agents.map (fun a => a.id)).Nodup) :
    min 5 agents.length ≤ (initial_viewers agents sample).length := by
  have hsub : ((influencers agents).map (fun a => a.id))
      ⊆ initial_viewers agents sample := by
    intro v hv
    rcases List.mem_map.mp hv with ⟨a, ha, rfl⟩
    exact influencers_mem_initial_viewers agents sample a ha
  have hnd := influencers_ids_nodup agents hN
  have hle := (hnd.subperm hsub).length_le
  rw [List.length_map, influencers_length] at hle
  exact hle

end Claims39d

section Claims39e

open Resonance RSimulation

/-- Processing a viewer keeps the agent id sequence. -/
theorem processViewer_agents_ids (policy : Policy) (inflIds : List String)
    (tick : Nat) (st : SimState) (aid : String) :
    (processViewer policy inflIds tick st aid).agents.map (fun a => a.id)
      = st.agents.map (fun a => a.id) := by
  rcases hf : st.agents.find? (fun a => a.id = aid) with _ | ag
  · rw [processViewer_none policy inflIds tick st aid hf]
  · rw [processViewer_some policy inflIds tick st aid ag hf]
    exact updateMood_map_id st.agents aid _

/-- A resolvable viewer appends exactly one interaction. -/
theorem processViewer_ledger_len (policy : Policy) (inflIds : List String)
    (tick : Nat) (st : SimState) (aid : String)
    (h : aid ∈ st.agents.map (fun a => a.id)) :
    (processViewer policy inflIds tick st aid).ledger.length
      = st.ledger.length + 1 := by
  obtain ⟨ag, hf, -⟩ := find_id_of_mem st.agents aid h
  rw [processViewer_some policy inflIds tick st aid ag hf]
  simp

/-- Processing a viewer never removes ledger entries. -/
theorem processViewer_ledger_mono (policy : Policy) (inflIds : List String)
    (tick : Nat) (st : SimState) (aid : String) :
    st.ledger.length ≤ (processViewer policy inflIds tick st aid).ledger.length := by
  rcases hf : st.agents.find? (fun a => a.id = aid) with _ | ag
  · rw [processViewer_none policy inflIds tick st aid hf]
  · rw [processViewer_some policy inflIds tick st aid ag hf]
    simp

/-- A viewer list of resolvable ids appends exactly one interaction per
viewer. -/
theorem foldViewers_ledger_len (policy : Policy) (inflIds : List String)
    (tick : Nat) :
    ∀ (vs : List String) (st : SimState),
      (∀ v ∈ vs, v ∈ st.agents.map (fun a => a.id)) →
      (vs.foldl (processViewer policy inflIds tick) st).ledger.length
        = st.ledger.length + vs.length := by
  intro vs
  induction vs with
  | nil => intro st _; simp
  | cons v rest ih =>
      intro st hv
      rw [List.foldl_cons]
      have h1 := processViewer_ledger_len policy inflIds tick st v
        (hv v (List.mem_cons_self v rest))
      have h2 : ∀ u ∈ rest,
          u ∈ (processViewer policy inflIds tick st v).agents.map (fun a => a.id) := by
        intro u hu
        rw [processViewer_agents_ids]
        exact hv u (List.mem_cons_of_mem v hu)
      rw [ih _ h2, h1]
      simp [Nat.add_assoc, Nat.add_comm 1 rest.length]

/-- The ledger only grows along a viewer list. -/
theorem foldViewers_ledger_mono (policy : Policy) (inflIds : List String)
    (tick : Nat) :
    ∀ (vs : List String) (st : SimState),
      st.ledger.length ≤ (vs.foldl (processViewer policy inflIds tick) st).ledger.length := by
  intro vs
  induction vs with
  | nil => intro st; simp
  | cons v rest ih =>
      intro st
      rw [List.foldl_cons]
      exact (processViewer_ledger_mono policy inflIds tick st v).trans
        (ih (processViewer policy inflIds tick st v))

/-- The ledger only grows across a tick. -/
theorem runTick_ledger_mono (policy : Policy) (rand : Nat → ℚ)
    (inflIds iv : List String) (st : SimState) (tick : Nat) :
    st.ledger.length ≤ (runTick policy rand inflIds iv st tick).ledger.length := by
  by_cases ht : tick = 0
  · simp only [runTick, if_pos ht]
    exact foldViewers_ledger_mono policy inflIds tick iv { st with c := st.c }
  · simp only [runTick, if_neg ht]
    exact foldViewers_ledger_mono policy inflIds tick
      ((shareViewers st.agents st.saw st.ledger
        ++ (commentViewers rand st.agents st.saw st.ledger st.c).1).dedup)
      { st with c := (commentViewers rand st.agents st.saw st.ledger st.c).2 }

/-- The ledger only grows across a sequence of ticks. -/
theorem foldTicks_ledger_mono (policy : Policy) (rand : Nat → ℚ)
    (inflIds iv : List String) :
    ∀ (ts : List Nat) (st : SimState),
      st.ledger.length ≤ (ts.foldl (runTick policy rand inflIds iv) st).ledger.length := by
  intro ts
  induction ts with
  | nil => intro st; simp
  | cons t rest ih =>
      intro st
      rw [List.foldl_cons]
      exact (runTick_ledger_mono policy rand inflIds iv st t).trans
        (ih (runTick policy rand inflIds iv st t))

/-- C9: for every oracle, stream, non-empty agent set with unique ids,
sample drawn from the agents and at least one tick, the tick-0 exposure set
contains the id of every top-min(5, N) influencer regardless of the random
sample, every exposed agent appends exactly one interaction, and the
finished ledger is non-empty with at least min(5, N) entries. -/
theorem C9_influencers_seeded (policy : Policy) (rand : Nat → ℚ)
    (agents sample : List AgentProfile) (num_ticks : Nat)
    (hne : agents ≠ []) (hN : (agents.map (fun a => a.id)).Nodup)
    (hsample : ∀ a ∈ sample, a ∈ agents) (hticks : 1 ≤ num_ticks) :
    (∀ a ∈ influencers agents, a.id ∈ initial_viewers agents sample)
    ∧ min 5 agents.length
        ≤ (run_simulation policy rand agents sample num_ticks).ledger.length
    ∧ (run_simulation policy rand agents sample num_ticks).ledger ≠ [] := by
  have hivsub : ∀ v ∈ initial_viewers agents sample,
      v ∈ agents.map (fun a => a.id) := by
    intro v hv
    have hv2 := List.mem_dedup.mp hv
    rcases List.mem_map.mp hv2 with ⟨x, hx, rfl⟩
    rcases List.mem_append.mp hx with h1 | h2
    · exact List.mem_map.mpr ⟨x, influencers_subset agents x h1, rfl⟩
    · exact List.mem_map.mpr ⟨x, hsample x h2, rfl⟩
  have hlen : min 5 agents.length
      ≤ (run_simulation policy rand agents sample num_ticks).ledger.length := by
    obtain ⟨n, rfl⟩ : ∃ n, num_ticks = n + 1 := ⟨num_ticks - 1, by omega⟩
    simp only [run_simulation]
    rw [List.range_succ_eq_map, List.foldl_cons]
    have h0 : (runTick policy rand ((influencers agents).map (fun a => a.id))
        (initial_viewers agents sample) ⟨agents, [], [], 0⟩ 0).ledger.length
        = (initial_viewers agents sample).length := by
      exact (foldViewers_ledger_len policy ((influencers agents).map (fun a => a.id)) 0
        (initial_viewers agents sample) ⟨agents, [], [], 0⟩
        (fun v hv => hivsub v hv)).trans (Nat.zero_add _)
    calc min 5 agents.length
        ≤ (initial_viewers agents sample).length :=
          initial_viewers_length agents sample hN
      _ = _ := h0.symm
      _ ≤ _ := foldTicks_ledger_mono policy rand _ _ _ _
  refine ⟨influencers_mem_initial_viewers agents sample, hlen, ?_⟩
  intro hcon
  rw [hcon] at hlen
  simp only [List.length_nil, Nat.le_zero] at hlen
  have := List.length_pos.mpr hne
  omega

/-- Witness for C9: the single-agent, one-tick run seeds that agent and
records exactly its one (ignore) interaction. -/
theorem C9_influencers_seeded_witness :
    (∀ a ∈ influencers Examples.soloAgents,
      a.id ∈ initial_viewers Examples.soloAgents [])
    ∧ min 5 Examples.soloAgents.length
        ≤ (run_simulation Examples.policy0 Examples.rand0 Examples.soloAgents [] 1).ledger.length
    ∧ (run_simulation Examples.policy0 Examples.rand0 Examples.soloAgents [] 1).ledger ≠ [] :=
  C9_influencers_seeded Examples.policy0 Examples.rand0 Examples.soloAgents [] 1
    (by decide) (by decide) (by intro a ha; simp at ha) (by norm_num)

end Claims39e
